import Mathlib

/-!
Verification development for the pymonetdb SQL cursor module
(pymonetdb/sql/cursors.py): the mapi result-protocol parser, the binary
result-block decoder and the windowed fetch engine of the Cursor class.

The Python code is shallowly embedded: Python lists become Lean lists,
Python ints become Int, bytes become lists of naturals below 256, raised
exceptions become explicit error results carrying the exception class and
message, and calls to external collaborators (the connection transport,
the batching policy, the per-column value decoders) become parameters or
are modelled from the specification where noted.
-/

namespace Pymonetdb

/-! ### Python list semantics -/

/-- Adjust one slice bound the way Python adjusts slice indices for a list
of length n: negative indices count from the end (clamped at 0), positive
indices are clamped at n. -/
def adjIdx (n : Nat) (i : Int) : Nat :=
  if i < 0 then (i + n).toNat else min i.toNat n

/-- Python slice l[a:b] (step 1). -/
def pySlice (l : List α) (a b : Int) : List α :=
  (l.take (adjIdx l.length b)).drop (adjIdx l.length a)

/-- Python indexing l[i]: negative indices count from the end; out of range
is an IndexError, modelled as none. -/
def pyGet (l : List α) (i : Int) : Option α :=
  if i < 0 then
    if i + l.length < 0 then none else l[(i + l.length).toNat]?
  else l[i.toNat]?

/-- Python item assignment l[i] = a: negative indices count from the end;
out of range is an IndexError, modelled as none. -/
def pySet (l : List α) (i : Int) (a : α) : Option (List α) :=
  if i < 0 then
    if 0 ≤ i + l.length ∧ (i + l.length).toNat < l.length then
      some (l.set (i + l.length).toNat a)
    else none
  else if i.toNat < l.length then some (l.set i.toNat a) else none

/-- Heads and tails of a family of lists; none when one of them is empty. -/
def heads? : List (List α) → Option (List α × List (List α))
  | [] => some ([], [])
  | [] :: _ => none
  | (x :: xs) :: rest => (heads? rest).map (fun p => (x :: p.1, xs :: p.2))

/-- Worker for pyZip, structurally recursive on a fuel that bounds the
length of the first list (each step consumes one element of it). -/
def pyZipGo : Nat → List (List α) → List (List α)
  | _, [] => []
  | _, [] :: _ => []
  | 0, (_ :: _) :: _ => []
  | fuel + 1, (x :: xs) :: rest =>
    match heads? rest with
    | none => []
    | some (hs, ts) => (x :: hs) :: pyZipGo fuel (xs :: ts)

/-- Python list(zip(*cols)): transposes a family of lists, truncating to the
shortest member; zip of no iterables is empty. -/
def pyZip (ls : List (List α)) : List (List α) :=
  pyZipGo (ls.headD []).length ls

/-- Length of the shortest member of a nonempty family (0 for the empty
family). -/
def minLens : List (List α) → Nat
  | [] => 0
  | [l] => l.length
  | l :: ls => min l.length (minLens ls)

/-! String operations are modelled over the character list of the string
(String.data), mirroring Python's character-indexed string semantics. -/

/-- Python s[:n]. -/
def pyTake (s : String) (n : Nat) : String := String.mk (s.data.take n)

/-- Python s[n:]. -/
def pyDrop (s : String) (n : Nat) : String := String.mk (s.data.drop n)

/-- Python s[:-n]. -/
def pyDropRight (s : String) (n : Nat) : String := String.mk (s.data.take (s.data.length - n))

/-- Python s.startswith(pre). -/
def pyStartsWith (s pre : String) : Bool := pre.data.isPrefixOf s.data

/-- Python s.strip(): remove leading and trailing whitespace. -/
def pyStrip (s : String) : String :=
  String.mk (((s.data.dropWhile Char.isWhitespace).reverse.dropWhile Char.isWhitespace).reverse)

/-- Worker for pySplit: scan left to right, each occurrence of the
separator ends the current piece (accumulated in reverse); the fuel is at
least the number of characters left. -/
def splitSepGo (sep : List Char) : Nat → List Char → List Char → List (List Char)
  | _, acc, [] => [acc.reverse]
  | 0, acc, l => [acc.reverse ++ l]
  | fuel + 1, acc, x :: xs =>
    if sep.isPrefixOf (x :: xs) then
      acc.reverse :: splitSepGo sep fuel [] ((x :: xs).drop sep.length)
    else
      splitSepGo sep fuel (x :: acc) xs

/-- Python s.split(sep) for a nonempty separator string. -/
def pySplit (s sep : String) : List String :=
  if sep.data = [] then [s]
  else (splitSepGo sep.data s.data.length [] s.data).map (fun cs => String.mk cs)

/-- Worker for splitWhite: split on whitespace runs, discarding empty
pieces; the fuel is at least the number of characters left. -/
def wordsGo : Nat → List Char → List (List Char)
  | _, [] => []
  | 0, l => [l]
  | fuel + 1, x :: xs =>
    if x.isWhitespace then wordsGo fuel xs
    else
      (x :: xs).takeWhile (fun c => !c.isWhitespace) ::
        wordsGo fuel ((x :: xs).dropWhile (fun c => !c.isWhitespace))

/-- Python str.split() with no separator: split on whitespace runs,
discarding empty pieces. -/
def splitWhite (s : String) : List String :=
  (wordsGo s.data.length s.data).map (fun cs => String.mk cs)

/-- Python int(str): optional surrounding whitespace, optional sign, at
least one digit (digit-group underscores are not modelled); anything else
is a ValueError, modelled as none. -/
def pyStrToInt (s : String) : Option Int :=
  let t := (pyStrip s).data
  let sds : Int × List Char :=
    match t with
    | '-' :: rest => (-1, rest)
    | '+' :: rest => (1, rest)
    | _ => (1, t)
  if sds.2 ≠ [] ∧ sds.2.all Char.isDigit then
    some (sds.1 * sds.2.foldl (fun a c => a * 10 + ((c.toNat : Int) - 48)) 0)
  else none

/-! ### Bytes, int64 and UTF-8 -/

inductive Endian
  | little
  | big
deriving DecidableEq

/-- struct.unpack of one signed 64-bit integer from the first 8 bytes,
in the given byte order (two's complement). -/
def readInt64 (e : Endian) (bs : List Nat) : Int :=
  let u : Nat :=
    match e with
    | .little => (bs.take 8).foldr (fun b acc => acc * 256 + b) 0
    | .big => (bs.take 8).foldl (fun acc b => acc * 256 + b) 0
  if u < 2 ^ 63 then (u : Int) else (u : Int) - 2 ^ 64

/-- struct.unpack_from of one signed 64-bit integer at the given offset
(negative offsets count from the end); none models struct.error when the
buffer does not hold 8 bytes there. -/
def readI64At (e : Endian) (b : List Nat) (off : Int) : Option Int :=
  let j := if off < 0 then off + b.length else off
  if 0 ≤ j ∧ j.toNat + 8 ≤ b.length then
    some (readInt64 e ((b.drop j.toNat).take 8))
  else none

/-- Strict UTF-8 decoding of a byte list into characters, rejecting
overlong forms, surrogates and code points above 0x10FFFF, exactly as
Python str(bytes, utf-8) does; none models UnicodeDecodeError. -/
def utf8Chars : List Nat → Option (List Char)
  | [] => some []
  | b :: rest =>
    if b < 0x80 then
      (utf8Chars rest).map (fun cs => Char.ofNat b :: cs)
    else if b < 0xC2 then none
    else if b < 0xE0 then
      match rest with
      | c1 :: rest1 =>
        if 0x80 ≤ c1 ∧ c1 < 0xC0 then
          (utf8Chars rest1).map (fun cs => Char.ofNat ((b - 0xC0) * 64 + (c1 - 0x80)) :: cs)
        else none
      | _ => none
    else if b < 0xF0 then
      match rest with
      | c1 :: c2 :: rest2 =>
        let lo1 := if b = 0xE0 then 0xA0 else 0x80
        let hi1 := if b = 0xED then 0x9F else 0xBF
        if (lo1 ≤ c1 ∧ c1 ≤ hi1) ∧ (0x80 ≤ c2 ∧ c2 < 0xC0) then
          (utf8Chars rest2).map (fun cs =>
            Char.ofNat (((b - 0xE0) * 64 + (c1 - 0x80)) * 64 + (c2 - 0x80)) :: cs)
        else none
      | _ => none
    else if b < 0xF5 then
      match rest with
      | c1 :: c2 :: c3 :: rest3 =>
        let lo1 := if b = 0xF0 then 0x90 else 0x80
        let hi1 := if b = 0xF4 then 0x8F else 0xBF
        if (lo1 ≤ c1 ∧ c1 ≤ hi1) ∧ (0x80 ≤ c2 ∧ c2 < 0xC0) ∧ (0x80 ≤ c3 ∧ c3 < 0xC0) then
          (utf8Chars rest3).map (fun cs =>
            Char.ofNat ((((b - 0xF0) * 64 + (c1 - 0x80)) * 64 + (c2 - 0x80)) * 64 + (c3 - 0x80)) :: cs)
        else none
      | _ => none
    else none

/-- Python str(bytes, utf-8). -/
def utf8Decode? (bs : List Nat) : Option String :=
  (utf8Chars bs).map (fun cs => String.mk cs)

/-- bytes.split(b nul, 1)[0]: the prefix before the first NUL byte (the
whole sequence when no NUL occurs). -/
def beforeNul (bs : List Nat) : List Nat :=
  bs.takeWhile (fun b => b ≠ 0)

/-! ### Exception classes, events, cursor data model -/

/-- The Python exception classes raised or logged by the cursor code:
the pymonetdb DBAPI classes (Error and its subclasses), Warning, and the
Python builtins that the code can raise implicitly. -/
inductive ExcClass
  | warning
  | error
  | interfaceError
  | databaseError
  | programmingError
  | operationalError
  | indexError
  | valueError
  | typeError
  | attributeError
  | structError
  | unicodeDecodeError
deriving DecidableEq

/-- Whether the class is pymonetdb Error or one of its subclasses (the
classes caught by an except-Error clause). -/
def ExcClass.isDbapiError : ExcClass → Bool
  | .error | .interfaceError | .databaseError | .programmingError | .operationalError => true
  | _ => false

/-- An exception value: class plus message, as stored in Cursor.messages
and as raised. -/
abbrev Err := ExcClass × String

/-- Observable calls the cursor makes on its external collaborators:
text commands and binary commands on the connection (transport round
trips), the sql execution round trip, and batch-policy notifications. -/
inductive Event
  | cmd (text : String)
  | bincmd (text : String)
  | execSql (text : String)
  | policyScroll
  | policyNewQuery
deriving DecidableEq

/-- One entry of Cursor.description: the 7-field column metadata record
(fields are None until the corresponding header arrives). -/
structure ColDesc where
  name : Option String
  type_code : Option String
  display_size : Option Int
  internal_size : Option Int
  precision : Option Int
  scale : Option Int
  null_ok : Option Bool
deriving DecidableEq

/-- The mutable state of a Cursor object. Values of result cells have the
opaque type Val (they are produced by external per-column decoders).
connection is true while the connection reference is set (close gives it
up); serverEndian is the byte order negotiated by the connection, read at
construction time. -/
structure CursorState (Val : Type) where
  connection : Bool
  operation : String
  arraysize : Int
  rowcount : Int
  description : Option (List ColDesc)
  canBindecode : Option Bool
  rownumber : Int
  executed : Option String
  offset : Int
  rows : List (List Val)
  resultsetsToClose : List String
  queryId : Option String
  messages : List Err
  lastrowid : Option Int
  nextResultSets : List (String × Int × List ColDesc × List (List Val))
  serverEndian : Endian
deriving DecidableEq

/-- The local variables of Cursor._store_result, alive for one parse:
the per-column metadata arrays being accumulated, plus two bookkeeping
flags recording that the cursor's current rows list (resp. description
list) is the same Python object as the one stored in the last queued
result set, so that mutations of the one are visible in the other. -/
structure Locals where
  columns : Int
  column_name : List (Option String)
  scaleA : List (Option Int)
  display_sizeA : List (Option Int)
  internal_sizeA : List (Option Int)
  precisionA : List (Option Int)
  null_okA : List (Option Bool)
  type_ : List (Option String)
  rowsAlias : Bool
  descAlias : Bool
deriving DecidableEq

/-- Fresh _store_result locals. -/
def Locals.init : Locals :=
  ⟨0, [], [], [], [], [], [], [], false, false⟩

/-- External collaborators of the cursor, as functions: pythonize.convert
(text cell decoding, taking the cell text and the column type code), the
wrapping of a raw Python str as a cell value (tuple-noslice lines), the
batching policy's batch_size(already_used, position, requested_end,
total_rows), and the outcome of binary-decode negotiation (policy consent
and availability of a binary decoder for every column). -/
structure Collab (Val : Type) where
  conv : String → Option String → Val
  raw : String → Val
  batchSize : Int → Int → Int → Int → Int
  bindecodeOutcome : Bool

/-- Result of a cursor operation: a return value, the new cursor state and
the collaborator calls made, or a raised exception (with the state as left
behind, including any message logged by _exception_handler). -/
inductive OpResult (Val : Type) (α : Type)
  | ok (a : α) (s : CursorState Val) (evs : List Event)
  | exn (e : Err) (s : CursorState Val) (evs : List Event)
deriving DecidableEq

/-! ### mapi line sentinels -/

/-- Modelled from the spec: the prompt sentinel of the mapi module (the
mapi module is not part of the sources under src/; the spec only names the
line kinds, so concrete sentinel strings are fixed here). An empty line is
the prompt. -/
def MSG_PROMPT : String := ""

/-- Modelled from the spec: info/warning line sentinel. -/
def MSG_INFO : String := "#"

/-- Modelled from the spec: server error line sentinel. -/
def MSG_ERROR : String := "!"

/-- Modelled from the spec: query-table line sentinel. -/
def MSG_QTABLE : String := "&1"

/-- Modelled from the spec: query-update line sentinel. -/
def MSG_QUPDATE : String := "&2"

/-- Modelled from the spec: query-schema line sentinel. -/
def MSG_QSCHEMA : String := "&3"

/-- Modelled from the spec: query-transaction line sentinel. -/
def MSG_QTRANS : String := "&4"

/-- Modelled from the spec: query-prepare line sentinel. -/
def MSG_QPREPARE : String := "&5"

/-- Modelled from the spec: query-block line sentinel. -/
def MSG_QBLOCK : String := "&6"

/-- Modelled from the spec: header line sentinel. -/
def MSG_HEADER : String := "%"

/-- Modelled from the spec: tuple line sentinel. -/
def MSG_TUPLE : String := "["

/-- Modelled from the spec: tuple-noslice line sentinel. -/
def MSG_TUPLE_NOSLICE : String := "="

/-! ### Cursor._store_result: the text-protocol block parser -/

variable {Val : Type}

/-- Outcome of processing one line of a block: continue with updated
cursor state and parse locals, stop successfully (prompt line), or raise. -/
inductive StepR (Val : Type)
  | next (s : CursorState Val) (loc : Locals)
  | done (s : CursorState Val) (loc : Locals)
  | raised (e : Err) (s : CursorState Val) (loc : Locals)
deriving DecidableEq

/-- Cursor._exception_handler inside the parser: append the exception to
the message list, then raise it. -/
def raisedLog (e : Err) (s : CursorState Val) (loc : Locals) : StepR Val :=
  .raised e {s with messages := s.messages ++ [e]} loc

/-- Replace the last element of a list. -/
def updLast (l : List α) (f : α → α) : List α :=
  match l with
  | [] => []
  | [x] => [f x]
  | x :: xs => x :: updLast xs f

/-- Propagate mutations of the cursor's rows and description lists into
the last queued result set, which holds the very same Python list objects
from the moment its query-table line appended it (value-level model of
that object sharing). -/
def syncQ (s : CursorState Val) (loc : Locals) : CursorState Val :=
  if loc.rowsAlias || loc.descAlias then
    {s with nextResultSets := updLast s.nextResultSets (fun e =>
      (e.1, e.2.1,
       if loc.descAlias then s.description.getD e.2.2.1 else e.2.2.1,
       if loc.rowsAlias then s.rows else e.2.2.2))}
  else s

/-- Cursor._parse_tuple plus the append to self._rows: strip the
bracketing characters, split on comma-tab, check the arity against the
current description and convert each cell; a missing description is
Python's TypeError from len(None). -/
def parseTupleAppend (C : Collab Val) (s : CursorState Val) (loc : Locals) (line : String) : StepR Val :=
  match s.description with
  | none => .raised (.typeError, "object of type NoneType has no len()") s loc
  | some desc =>
    let elements := pySplit (pyDropRight (pyDrop line 1) 1) ",\t"
    if elements.length = desc.length then
      let row := (elements.zip desc).map (fun p => C.conv (pyStrip p.1) p.2.type_code)
      .next (syncQ {s with rows := s.rows ++ [row]} loc) loc
    else
      raisedLog (.interfaceError, "length of row doesn't match header") s loc

/-- The two ints of one typesizes value: i.split() then int(j) for each
piece; none is the ValueError from int(). -/
def intsOfField (v : String) : Option (List Int) :=
  (splitWhite v).mapM pyStrToInt

/-- The loop over enumerate(type_) in the typesizes branch: for every
column whose type tag is decimal, precision[num] := typesizes[num][0] and
scale[num] := typesizes[num][1]; none is an IndexError from one of the
list accesses or assignments. -/
def decimalLoop (tsz : List (List Int)) :
    List (Option String) → Nat → List (Option Int) → List (Option Int) →
    Option (List (Option Int) × List (Option Int))
  | [], _, prec, sc => some (prec, sc)
  | t :: rest, num, prec, sc =>
    if t = some "decimal" then
      match pyGet tsz (num : Int) with
      | none => none
      | some ts =>
        match pyGet ts 0 with
        | none => none
        | some a =>
          match pySet prec (num : Int) (some a) with
          | none => none
          | some prec' =>
            match pyGet ts 1 with
            | none => none
            | some b =>
              match pySet sc (num : Int) (some b) with
              | none => none
              | some sc' => decimalLoop tsz rest (num + 1) prec' sc'
    else decimalLoop tsz rest (num + 1) prec sc

/-- The description rebuild at the end of every header branch: one ColDesc
per column index below the column count, read from the metadata arrays;
none is an IndexError from one of the array reads (the partial extension
of the description list before such a failure is not modelled, since the
parse aborts there). -/
def buildColDescs (loc : Locals) : Option (List ColDesc) :=
  (List.range loc.columns.toNat).mapM (fun (i : Nat) =>
    match pyGet loc.column_name (i : Int), pyGet loc.type_ (i : Int),
          pyGet loc.display_sizeA (i : Int), pyGet loc.internal_sizeA (i : Int),
          pyGet loc.precisionA (i : Int), pyGet loc.scaleA (i : Int),
          pyGet loc.null_okA (i : Int) with
    | some nm, some ty, some ds, some isz, some pr, some sc, some no =>
      some (⟨nm, ty, ds, isz, pr, sc, no⟩ : ColDesc)
    | _, _, _, _, _, _, _ => none)

/-- Tail of every header branch: description[:] = [] followed by appends,
then self.description = description and self._offset = 0. -/
def rebuildDescription (s : CursorState Val) (loc : Locals) : StepR Val :=
  match buildColDescs loc with
  | none => .raised (.indexError, "list index out of range") s loc
  | some d => .next (syncQ {s with description := some d, offset := 0} loc) loc

/-- The header-line branch of _store_result, after the line has been split
into its comma-separated values and its identity tag. -/
def processHeader (s : CursorState Val) (loc : Locals)
    (values : List String) (identity : String) : StepR Val :=
  if identity = "name" then rebuildDescription s {loc with column_name := values.map some}
  else if identity = "table_name" then rebuildDescription s loc
  else if identity = "type" then rebuildDescription s {loc with type_ := values.map some}
  else if identity = "length" then rebuildDescription s loc
  else if identity = "typesizes" then
    match values.mapM intsOfField with
    | none => .raised (.valueError, "invalid literal for int() with base 10") s loc
    | some tsz =>
      match tsz.mapM (fun x => pyGet x 0) with
      | none => .raised (.indexError, "list index out of range") s loc
      | some firsts =>
        let loc := {loc with internal_sizeA := firsts.map some}
        match decimalLoop tsz loc.type_ 0 loc.precisionA loc.scaleA with
        | none => .raised (.indexError, "list index out of range") s loc
        | some ps => rebuildDescription s {loc with precisionA := ps.1, scaleA := ps.2}
  else
    rebuildDescription
      {s with messages := s.messages ++ [(.warning, "unknown header field: " ++ identity)]} loc

/-- The query-table / query-prepare branch of _store_result: starts a new
result set, allocates the per-column metadata arrays, and queues the new
result set when a fresh queue is being built. -/
def processQTable (ue : Bool) (s : CursorState Val) (loc : Locals) (line : String) : StepR Val :=
  match (splitWhite (pyDrop line 2)).take 4 with
  | [qid, rcs, colss, tupss] =>
    let s := {s with queryId := some qid}
    match pyStrToInt colss with
    | none => .raised (.valueError, "invalid literal for int() with base 10") s loc
    | some columns =>
      match pyStrToInt tupss with
      | none => .raised (.valueError, "invalid literal for int() with base 10") s loc
      | some tuples =>
        let s := if tuples < s.rowcount
          then {s with resultsetsToClose := s.resultsetsToClose ++ [qid]} else s
        -- self.description and self._rows are about to be rebound: flush the
        -- shared lists into the previously queued result set first
        let s := syncQ s loc
        let loc := {loc with rowsAlias := false, descAlias := false}
        let s := {s with description := some []}
        match pyStrToInt rcs with
        | none => .raised (.valueError, "invalid literal for int() with base 10") s loc
        | some rc =>
          let s := {s with rowcount := rc, rows := []}
          let s := if !ue
            then {s with nextResultSets := s.nextResultSets ++ [(qid, rc, [], [])]} else s
          let loc := {loc with
            columns := columns,
            column_name := List.replicate columns.toNat none,
            type_ := List.replicate columns.toNat none,
            display_sizeA := List.replicate columns.toNat none,
            internal_sizeA := List.replicate columns.toNat none,
            precisionA := List.replicate columns.toNat none,
            scaleA := List.replicate columns.toNat none,
            null_okA := List.replicate columns.toNat none,
            rowsAlias := !ue,
            descAlias := !ue}
          let s := {s with offset := 0}
          if pyStartsWith line MSG_QPREPARE then
            match pyStrToInt qid with
            | none => .raised (.valueError, "invalid literal for int() with base 10") s loc
            | some lid => .next {s with lastrowid := some lid} loc
          else .next {s with lastrowid := none} loc
  | _ => .raised (.valueError, "not enough values to unpack (expected 4)") s loc

/-- The query-update branch of _store_result: DML executed; record the
affected-row count and last inserted id, clear result-set state. -/
def processQUpdate (s : CursorState Val) (loc : Locals) (line : String) : StepR Val :=
  match (splitWhite (pyDrop line 2)).take 2 with
  | [aff, ident] =>
    let s := syncQ s loc
    let loc := {loc with rowsAlias := false, descAlias := false}
    let s := {s with offset := 0, rows := [], description := none}
    match pyStrToInt aff with
    | none => .raised (.valueError, "invalid literal for int() with base 10") s loc
    | some a =>
      let s := {s with rowcount := a}
      match pyStrToInt ident with
      | none => .raised (.valueError, "invalid literal for int() with base 10") s loc
      | some lid => .next {s with lastrowid := some lid, queryId := none} loc
  | _ => .raised (.valueError, "not enough values to unpack (expected 2)") s loc

/-- One iteration of the line loop of _store_result: classify the line by
its leading sentinel and apply the corresponding branch, in the exact
order of the source; unrecognized lines fall through silently. -/
def storeLine (C : Collab Val) (ue : Bool) (s : CursorState Val) (loc : Locals) (line : String) : StepR Val :=
  if pyTake line 1 = MSG_TUPLE then parseTupleAppend C s loc line
  else if pyTake line 1 = MSG_HEADER then
    match pySplit (pyDrop line 1) "#" with
    | [data, identity] => processHeader s loc ((pySplit data ",").map pyStrip) (pyStrip identity)
    | _ => .raised (.valueError, "values to unpack mismatch (expected 2)") s loc
  else if pyStartsWith line MSG_INFO then
    .next {s with messages := s.messages ++ [(.warning, pyDrop line 1)]} loc
  else if pyStartsWith line MSG_QTABLE || pyStartsWith line MSG_QPREPARE then
    processQTable ue s loc line
  else if pyStartsWith line MSG_TUPLE_NOSLICE then
    .next (syncQ {s with rows := s.rows ++ [[C.raw (pyDrop line 1)]]} loc) loc
  else if pyStartsWith line MSG_QBLOCK then
    -- self._rows = [] rebinds the rows list, breaking sharing with the queue
    let s := syncQ s loc
    .next {s with rows := []} {loc with rowsAlias := false}
  else if pyStartsWith line MSG_QSCHEMA then
    let s := syncQ s loc
    .next {s with offset := 0, lastrowid := none, rows := [], description := none, rowcount := -1}
      {loc with rowsAlias := false, descAlias := false}
  else if pyStartsWith line MSG_QUPDATE then processQUpdate s loc line
  else if pyStartsWith line MSG_QTRANS then
    let s := syncQ s loc
    .next {s with offset := 0, lastrowid := none, rows := [], description := none, rowcount := -1}
      {loc with rowsAlias := false, descAlias := false}
  else if line = MSG_PROMPT then .done s loc
  else if pyStartsWith line MSG_ERROR then
    raisedLog (.programmingError, pyDrop line 1) s loc
  else .next s loc

/-- Outcome of the whole line loop: stopped at a prompt, exhausted the
lines without a prompt, or raised. -/
inductive ParseOut (Val : Type)
  | finished (s : CursorState Val) (loc : Locals)
  | exhausted (s : CursorState Val) (loc : Locals)
  | failed (e : Err) (s : CursorState Val) (loc : Locals)
deriving DecidableEq

/-- The line loop of _store_result. -/
def storeLines (C : Collab Val) (ue : Bool) : CursorState Val → Locals → List String → ParseOut Val
  | s, loc, [] => .exhausted s loc
  | s, loc, line :: rest =>
    match storeLine C ue s loc line with
    | .next s' loc' => storeLines C ue s' loc' rest
    | .done s' loc' => .finished s' loc'
    | .raised e s' loc' => .failed e s' loc'

/-- Cursor._store_result: split the block into lines and run the line
loop; falling off the end of the block without a prompt line raises the
unknown-state interface error through _exception_handler. -/
def storeResult (C : Collab Val) (ue : Bool) (s : CursorState Val) (block : String) :
    Except (Err × CursorState Val) (CursorState Val) :=
  let s := if ue then s else {s with nextResultSets := []}
  match storeLines C ue s Locals.init (pySplit block "\n") with
  | .finished s' _ => .ok s'
  | .failed e s' _ => .error (e, s')
  | .exhausted s' _ =>
    let msg := "Unknown state, " ++ block
    .error ((.interfaceError, msg), {s' with messages := s'.messages ++ [(.interfaceError, msg)]})

/-- The exception component of a parse outcome, if any. -/
def errOfP : Except (Err × CursorState Val) (CursorState Val) → Option Err
  | .ok _ => none
  | .error p => some p.1

/-! ### Cursor._store_binary_result: the binary block decoder -/

/-- Raise through _exception_handler on a parse-style result: the message
is appended to the cursor's message list, then the exception propagates. -/
def raiseE (c : ExcClass) (m : String) (s : CursorState Val) :
    Except (Err × CursorState Val) (CursorState Val) :=
  .error ((c, m), {s with messages := s.messages ++ [(c, m)]})

/-- The TOC loop of _store_binary_result: for each column index, unpack
the (start, length) pair at toc + 16 * i, slice the block and hand the
slice to that column's decoder (i is the index of the first decoder in
ds within the full decoder list). -/
def tocCols (e : Endian) (block : List Nat) (toc : Int) :
    List (Endian → List Nat → List Val) → Nat → Except Err (List (List Val))
  | [], _ => .ok []
  | d :: ds, i =>
    match readI64At e block (toc + 16 * i) with
    | none => .error (.structError, "unpack_from requires a buffer of at least 8 bytes")
    | some start =>
      match readI64At e block (toc + 16 * i + 8) with
      | none => .error (.structError, "unpack_from requires a buffer of at least 8 bytes")
      | some len =>
        let col := d e (pySlice block start (start + len))
        match tocCols e block toc ds (i + 1) with
        | .error err => .error err
        | .ok rest => .ok (col :: rest)

/-- Cursor._store_binary_result: the last 8 bytes are a signed int64 in
the server's byte order; when negative it locates a NUL-terminated UTF-8
error message ending at the trailing pointer, otherwise it locates the
table of contents, whose per-column byte ranges are decoded and the
resulting columns transposed into rows (the decoders stand for
self._bindecoders, whose presence the source asserts). -/
def storeBinaryResult (decoders : List (Endian → List Nat → List Val))
    (s : CursorState Val) (block : List Nat) :
    Except (Err × CursorState Val) (CursorState Val) :=
  let e := s.serverEndian
  if block.length < 8 then raiseE .interfaceError "binary response too short" s
  else
    let toc := readInt64 e ((block.drop (block.length - 8)).take 8)
    if toc < 0 then
      let bmsg := beforeNul (pySlice block toc ((block.length : Int) - 8))
      match utf8Decode? bmsg with
      | none => raiseE .interfaceError "invalid utf-8 in error message" s
      | some msg => raiseE .programmingError msg s
    else
      match tocCols e block toc decoders 0 with
      | .error err => .error (err, s)
      | .ok cols => .ok {s with rows := pyZip cols}

/-! ### The windowed fetch engine -/

/-- Python truthiness of self._executed: None and the empty string are
falsy. -/
def executedFalsy (e : Option String) : Bool :=
  match e with
  | none => true
  | some t => t = ""

/-- Cursor._check_executed as a condition (true means the guard raises
a ProgrammingError through _exception_handler). -/
def checkExecutedFails (s : CursorState Val) : Bool :=
  executedFalsy s.executed

/-- str(self._query_id) as interpolated into export commands. -/
def queryIdStr (s : CursorState Val) : String :=
  match s.queryId with
  | some q => q
  | none => "None"

/-- The export command round trip recorded by _populate_cache: a binary
Xexportbin command or a text Xexport command for the given query id,
start row and row count. -/
def exportEvent (useBin : Bool) (q : String) (start count : Int) : Event :=
  if useBin then .bincmd ("Xexportbin " ++ q ++ " " ++ toString start ++ " " ++ toString count)
  else .cmd ("Xexport " ++ q ++ " " ++ toString start ++ " " ++ toString count)

/-- Modelled from the spec: the transport round trip of an export command
together with the parsing of its reply. The connection and the server are
external collaborators; per the spec the command Xexport(bin) q start
count returns the rows [start, start + count) of the server-side result
set, which the parser deposits in the row buffer. -/
def serverRows (table : List (List Val)) (start count : Int) : List (List Val) :=
  (table.drop start.toNat).take count.toNat

/-- Cursor._populate_cache: clear the window, relocate offset to the
current row, ask the policy for a batch size, negotiate binary decoding
once per result set (the outcome of policy consent plus per-column
decoder availability is the external collaborator verdict), then issue
one export round trip whose rows become the new window. -/
def populateCache (C : Collab Val) (table : List (List Val)) (s : CursorState Val)
    (alreadyUsed requestedEnd : Int) : CursorState Val × List Event :=
  let s := {s with rows := [], offset := s.rownumber}
  let rowsToFetch := C.batchSize alreadyUsed s.rownumber requestedEnd s.rowcount
  let s := match s.canBindecode with
    | none => {s with canBindecode := some C.bindecodeOutcome}
    | some _ => s
  let useBin := s.canBindecode.getD false
  let s := {s with rows := serverRows table s.rownumber rowsToFetch}
  (s, [exportEvent useBin (queryIdStr s) s.rownumber rowsToFetch])

/-- Cursor.fetchone: next row or none at end of data, refilling the
window once when the current position is outside it. -/
def fetchone (C : Collab Val) (table : List (List Val)) (s : CursorState Val) :
    OpResult Val (Option (List Val)) :=
  if checkExecutedFails s then
    .exn (.programmingError, "do a execute() first")
      {s with messages := s.messages ++ [(.programmingError, "do a execute() first")]} []
  else if s.queryId = none then
    .exn (.programmingError, "query didn't result in a resultset")
      {s with messages := s.messages ++ [(.programmingError, "query didn't result in a resultset")]} []
  else
    let cacheEnd := s.offset + s.rows.length
    if s.rownumber ≥ cacheEnd then
      if s.rownumber ≥ s.rowcount then .ok none s []
      else
        let p := populateCache C table s 0 (s.rownumber + 1)
        match pyGet p.1.rows (p.1.rownumber - p.1.offset) with
        | some r => .ok (some r) {p.1 with rownumber := p.1.rownumber + 1} p.2
        | none => .exn (.indexError, "list index out of range") p.1 p.2
    else
      match pyGet s.rows (s.rownumber - s.offset) with
      | some r => .ok (some r) {s with rownumber := s.rownumber + 1} []
      | none => .exn (.indexError, "list index out of range") s []

/-- Cursor.fetchmany: serve as much as possible from the window, then top
the window up with at most one refill and complete the slice; advances
rownumber to requested_end = min(rownumber + size, rowcount). -/
def fetchmany (C : Collab Val) (table : List (List Val)) (size? : Option Int)
    (s : CursorState Val) : OpResult Val (List (List Val)) :=
  if checkExecutedFails s then
    .exn (.programmingError, "do a execute() first")
      {s with messages := s.messages ++ [(.programmingError, "do a execute() first")]} []
  else if s.queryId = none then
    .exn (.programmingError, "query didn't result in a resultset")
      {s with messages := s.messages ++ [(.programmingError, "query didn't result in a resultset")]} []
  else
    let size := size?.getD s.arraysize
    let cacheEnd := s.offset + s.rows.length
    let requestedEnd := min (s.rownumber + size) s.rowcount
    if requestedEnd ≤ cacheEnd then
      let result := pySlice s.rows (s.rownumber - s.offset) (requestedEnd - s.offset)
      .ok result {s with rownumber := requestedEnd} []
    else
      let result := pySlice s.rows (s.rownumber - s.offset) (cacheEnd - s.offset)
      let s := {s with rownumber := cacheEnd}
      let p := populateCache C table s (result.length : Int) requestedEnd
      let s := p.1
      let result := result ++ pySlice s.rows (s.rownumber - s.offset) (requestedEnd - s.offset)
      .ok result {s with rownumber := requestedEnd} p.2

/-- Cursor.fetchall: fetchmany of the whole remaining row count. -/
def fetchall (C : Collab Val) (table : List (List Val)) (s : CursorState Val) :
    OpResult Val (List (List Val)) :=
  fetchmany C table (some s.rowcount) s

/-- Cursor.scroll: relative or absolute repositioning; a move inside the
window is a pure pointer move, a move outside clears the window, relocates
offset and notifies the policy; a target past the row count is an
IndexError. -/
def scroll (value : Int) (mode : String) (s : CursorState Val) : OpResult Val Unit :=
  if checkExecutedFails s then
    .exn (.programmingError, "do a execute() first")
      {s with messages := s.messages ++ [(.programmingError, "do a execute() first")]} []
  else if mode ≠ "relative" ∧ mode ≠ "absolute" then
    .exn (.programmingError, "unknown mode '" ++ mode ++ "'")
      {s with messages := s.messages ++ [(.programmingError, "unknown mode '" ++ mode ++ "'")]} []
  else
    let value := if mode = "relative" then value + s.rownumber else value
    if s.offset ≤ value ∧ value < s.offset + s.rows.length then
      .ok () {s with rownumber := value} []
    else if value > s.rowcount then
      .exn (.indexError, "value beyond length of resultset")
        {s with messages := s.messages ++ [(.indexError, "value beyond length of resultset")]} []
    else
      .ok () {s with rownumber := value, offset := value, rows := []} [.policyScroll]

/-- Cursor._close_earlier_resultsets: issue one Xclose command per queued
id and clear the list; touching self.connection.command with a severed
connection is Python's AttributeError (only reached when the list is
nonempty). Failures of the command round trip itself are external and not
modelled. -/
def closeEarlierResultsets (s : CursorState Val) : OpResult Val Unit :=
  match s.resultsetsToClose with
  | [] => .ok () s []
  | l =>
    if s.connection then
      .ok () {s with resultsetsToClose := []} (l.map (fun rs => .cmd ("Xclose " ++ rs)))
    else
      .exn (.attributeError, "NoneType object has no attribute command") s []

/-- Cursor.close: try to close earlier result sets, swallowing pymonetdb
Error exceptions, then sever the connection reference. -/
def close (s : CursorState Val) : OpResult Val Unit :=
  match closeEarlierResultsets s with
  | .ok _ s' evs => .ok () {s' with connection := false} evs
  | .exn e s' evs =>
    if e.1.isDbapiError then .ok () {s' with connection := false} evs
    else .exn e s' evs

/-- The raised exception of an operation, if any. -/
def OpResult.errOf : OpResult Val α → Option Err
  | .ok _ _ _ => none
  | .exn e _ _ => some e

/-- The returned value of an operation, if it succeeded. -/
def OpResult.valOf : OpResult Val α → Option α
  | .ok a _ _ => some a
  | .exn _ _ _ => none

/-- The cursor state an operation leaves behind. -/
def OpResult.stateOf : OpResult Val α → CursorState Val
  | .ok _ s _ => s
  | .exn _ s _ => s

/-- The collaborator calls an operation made. -/
def OpResult.evsOf : OpResult Val α → List Event
  | .ok _ _ evs => evs
  | .exn _ _ evs => evs

/-- Cursor.nextset: pop the next queued result set, if any, and activate
it, resetting the window and the binary-decode negotiation. -/
def nextset (s : CursorState Val) : Option Bool × CursorState Val × List Event :=
  match s.nextResultSets with
  | [] => (none, s, [])
  | e :: rest =>
    (some true,
     {s with queryId := some e.1, rowcount := e.2.1, description := some e.2.2.1,
             rows := e.2.2.2, nextResultSets := rest, offset := 0, rownumber := 0,
             canBindecode := none},
     [.policyNewQuery])

/-- Cursor.execute for the parameters = None path (parameter substitution
is plain string formatting and out of scope per the spec). The closed
check comes first; then the message list is cleared, earlier result sets
are closed, the policy is consulted for a reply size (the reply-size
exchange itself is between the policy and the connection, both external),
the query round trip is made (its reply block is the respBlock parameter,
the server being external), the reply is parsed and the first result set
activated, and _executed is set. Returns the row count when
nonnegative. -/
def execute (C : Collab Val) (s : CursorState Val) (operation : String) (respBlock : String) :
    OpResult Val (Option Int) :=
  if !s.connection then
    .exn (.programmingError, "cursor is closed")
      {s with messages := s.messages ++ [(.programmingError, "cursor is closed")]} []
  else
    let s := {s with messages := []}
    match closeEarlierResultsets s with
    | .exn e s' evs => .exn e s' evs
    | .ok _ s1 evs1 =>
      let evs1 := evs1 ++ [Event.policyNewQuery]
      let s1 := {s1 with operation := operation}
      let query := operation
      let evs1 := evs1 ++ [Event.execSql query]
      match storeResult C false s1 respBlock with
      | .error p => .exn p.1 p.2 evs1
      | .ok s2 =>
        let n := nextset s2
        let s3 := {n.2.1 with executed := some operation}
        .ok (if 0 ≤ s3.rowcount then some s3.rowcount else none) s3 (evs1 ++ n.2.2)

/-- Whether a step outcome is the successful-stop constructor (reached
only by a prompt line). -/
def StepR.isDone {Val : Type} : StepR Val → Bool
  | .done _ _ => true
  | _ => false

/-- A line that, in every parser state, just continues the line loop:
it neither stops the parse (prompt) nor raises. -/
def AlwaysSteps (C : Collab Val) (ue : Bool) (line : String) : Prop :=
  ∀ s loc, ∃ s2 loc2, storeLine C ue s loc line = .next s2 loc2

/-- The description entry the typesizes branch produces for column j when
the declared types are types and the typesizes pairs are (p j, q j). -/
def typesizesEntry (types : List (Option String)) (p q : Nat → Int) (j : Nat) : ColDesc :=
  ⟨none, (types[j]?).getD none, none, some (p j),
   if (types[j]?).getD none = some "decimal" then some (p j) else none,
   if (types[j]?).getD none = some "decimal" then some (q j) else none, none⟩

/-! ### Verification interface: state predicates and test fixtures -/

/-- The cursor is in state result-set-active for the server-side result
table: an execute has happened, a result set is active, the reported row
count is the table's length, and the window is a consistent slice of the
table with the current row inside (or just past) it. -/
def Active (table : List (List Val)) (s : CursorState Val) : Prop :=
  s.executed ≠ none ∧ s.executed ≠ some "" ∧ s.queryId ≠ none ∧
  s.rowcount = (table.length : Int) ∧
  0 ≤ s.offset ∧
  s.rows = (table.drop s.offset.toNat).take s.rows.length ∧
  s.offset + (s.rows.length : Int) ≤ s.rowcount ∧
  s.offset ≤ s.rownumber ∧ s.rownumber ≤ s.offset + (s.rows.length : Int)

instance {Val : Type} [DecidableEq Val] (table : List (List Val)) (s : CursorState Val) :
    Decidable (Active table s) := by
  unfold Active
  infer_instance

/-- The batching-policy collaborator contract assumed by the fetch
methods: a refill request returns at least enough rows to reach the
requested end (the policy may prefetch more). -/
def PolicyAdequate (C : Collab Val) : Prop :=
  ∀ a p e t : Int, e - p ≤ C.batchSize a p e t

/-- Run a sequence of fetchmany calls with the given sizes, concatenating
the returned chunks; none if one of the calls raises. -/
def runMany (C : Collab Val) (table : List (List Val)) :
    CursorState Val → List Int → Option (List (List Val) × CursorState Val)
  | s, [] => some ([], s)
  | s, k :: ks =>
    match fetchmany C table (some k) s with
    | .ok chunk s' _ => (runMany C table s' ks).map (fun p => (chunk ++ p.1, p.2))
    | .exn _ _ _ => none

/-- Concrete collaborator set over Nat cell values, used to evaluate the
theorems on concrete inputs: text cells decode to their length, raw cells
to length plus 100, and the batch policy requests exactly the rows needed
to reach the requested end. -/
def natCollab : Collab Nat :=
  ⟨fun v _ => v.length, fun v => v.length + 100, fun _ p e _ => e - p, false⟩

/-- A freshly constructed cursor (the state Cursor.__init__ builds, for a
little-endian server and arraysize 100). -/
def freshCursor : CursorState Nat :=
  ⟨true, "", 100, -1, none, none, -1, none, 0, [], [], none, [], none, [], .little⟩

/-- A three-row, one-column server-side result table. -/
def table3 : List (List Nat) := [[1], [2], [3]]

/-- A cursor with an active three-row result set whose window holds the
first row. -/
def activeCursor : CursorState Nat :=
  ⟨true, "q", 100, 3, some [], some false, 0, some "q", 0, [[1]], [], some "7", [], none, [], .little⟩

/-- Two binary column decoders returning columns of unequal length (two
values against one). -/
def mismatchedDecoders : List (Endian → List Nat → List Nat) :=
  [fun _ _ => [10, 11], fun _ _ => [20]]

/-- A 40-byte binary block whose trailing pointer is 0 and whose TOC is
all zeros: well-formed for two columns. -/
def zeroTocBlock : List Nat := List.replicate 40 0

/-- A binary block embedding the NUL-terminated UTF-8 error message hi:
bytes of hi, a NUL, then the trailing pointer -11 (little endian). -/
def errMsgBlock : List Nat := [104, 105, 0] ++ [245, 255, 255, 255, 255, 255, 255, 255]

/-- A binary block embedding one invalid UTF-8 byte before the trailing
pointer -9 (little endian). -/
def badUtf8Block : List Nat := [255] ++ [247, 255, 255, 255, 255, 255, 255, 255]

/-! ### Support lemmas -/

theorem executedFalsy_false {e : Option String} (h1 : e ≠ none) (h2 : e ≠ some "") :
    executedFalsy e = false := by
  cases e with
  | none => exact absurd rfl h1
  | some t =>
    simp only [executedFalsy, decide_eq_false_iff_not]
    intro h
    exact h2 (by rw [h])

theorem pySlice_neg_start (l : List α) (a b : Int) (ha : a < 0) (hb : 0 ≤ b)
    (hbl : b ≤ (l.length : Int)) :
    pySlice l a b = (l.take b.toNat).drop (a + l.length).toNat := by
  unfold pySlice adjIdx
  rw [if_pos ha, if_neg (not_lt.mpr hb)]
  rw [show min b.toNat l.length = b.toNat from by omega]

/-! ### Claim C3 -/

/-- C3: a binary block shorter than 8 bytes fails immediately with the
interface error binary response too short; when the trailing 8-byte signed
integer in the connection's byte order is negative, decoding fails with
the class used for server-reported query errors (ProgrammingError) whose
message is the UTF-8 decoding of the NUL-terminated byte sequence starting
at that from-the-end offset and running up to but not including the
trailing pointer, or with an interface error when those bytes are not
valid UTF-8; in every case the error is also logged in the message
list. -/
theorem c3_binary_error_paths {Val : Type} (decoders : List (Endian → List Nat → List Val))
    (s : CursorState Val) (block : List Nat) :
    (block.length < 8 →
      storeBinaryResult decoders s block =
        .error ((.interfaceError, "binary response too short"),
          {s with messages := s.messages ++ [(.interfaceError, "binary response too short")]}))
    ∧ (∀ toc, toc = readInt64 s.serverEndian ((block.drop (block.length - 8)).take 8) →
       ∀ msgBytes,
         msgBytes = ((block.take (block.length - 8)).drop (toc + block.length).toNat).takeWhile
           (fun b => b ≠ 0) →
       8 ≤ block.length → toc < 0 →
       (∀ m, utf8Decode? msgBytes = some m →
          storeBinaryResult decoders s block =
            .error ((.programmingError, m),
              {s with messages := s.messages ++ [(.programmingError, m)]}))
       ∧ (utf8Decode? msgBytes = none →
          storeBinaryResult decoders s block =
            .error ((.interfaceError, "invalid utf-8 in error message"),
              {s with messages := s.messages ++ [(.interfaceError, "invalid utf-8 in error message")]}))) := by
  constructor
  · intro h
    unfold storeBinaryResult
    rw [if_pos h]
    rfl
  · intro toc htoc msgBytes hmsg h8 hneg
    have hnotlt : ¬ block.length < 8 := by omega
    have hslice : pySlice block toc ((block.length : Int) - 8) =
        (block.take (block.length - 8)).drop (toc + block.length).toNat := by
      rw [pySlice_neg_start block toc _ hneg (by omega) (by omega)]
      congr 2
      omega
    constructor
    · intro m hm
      unfold storeBinaryResult
      rw [if_neg hnotlt]
      simp only [← htoc, beforeNul, hslice, ← hmsg, hm, if_pos hneg]
      rfl
    · intro hm
      unfold storeBinaryResult
      rw [if_neg hnotlt]
      simp only [← htoc, beforeNul, hslice, ← hmsg, hm, if_pos hneg]
      rfl

/-- Witness for C3: the three branches evaluated on concrete blocks — a
3-byte block, a block embedding the message hi, and a block embedding an
invalid UTF-8 byte. -/
theorem c3_binary_error_paths_witness :
    storeBinaryResult mismatchedDecoders freshCursor [1, 2, 3] =
      .error ((.interfaceError, "binary response too short"),
        {freshCursor with messages := [(.interfaceError, "binary response too short")]})
    ∧ storeBinaryResult mismatchedDecoders freshCursor errMsgBlock =
      .error ((.programmingError, "hi"),
        {freshCursor with messages := [(.programmingError, "hi")]})
    ∧ storeBinaryResult mismatchedDecoders freshCursor badUtf8Block =
      .error ((.interfaceError, "invalid utf-8 in error message"),
        {freshCursor with messages := [(.interfaceError, "invalid utf-8 in error message")]}) := by
  refine ⟨(c3_binary_error_paths mismatchedDecoders freshCursor [1, 2, 3]).1 (by decide), ?_, ?_⟩
  · exact ((c3_binary_error_paths mismatchedDecoders freshCursor errMsgBlock).2 _ rfl _ rfl
      (by decide) (by decide)).1 "hi" (by decide)
  · exact ((c3_binary_error_paths mismatchedDecoders freshCursor badUtf8Block).2 _ rfl _ rfl
      (by decide) (by decide)).2 (by decide)

theorem pySlice_eq_nil (l : List α) (a b : Int) (h : adjIdx l.length b ≤ adjIdx l.length a) :
    pySlice l a b = [] := by
  unfold pySlice
  apply List.drop_eq_nil_of_le
  rw [List.length_take]
  omega

/-! ### Claim C6 -/

/-- C6: a scroll with a valid mode whose target lies inside the current
window changes only rownumber, with no transport call and no policy
notification; a scroll whose in-bounds target lies outside the window
clears the row buffer, sets both offset and rownumber to the target, and
issues exactly the policy scroll notification, with no prefetch. -/
theorem c6_scroll_frame {Val : Type} (s : CursorState Val) (value : Int) (mode : String)
    (hchk : checkExecutedFails s = false)
    (hmode : mode = "relative" ∨ mode = "absolute") :
    ∀ target, target = (if mode = "relative" then value + s.rownumber else value) →
    (s.offset ≤ target ∧ target < s.offset + (s.rows.length : Int) →
      scroll value mode s = .ok () {s with rownumber := target} [])
    ∧ (¬ (s.offset ≤ target ∧ target < s.offset + (s.rows.length : Int)) →
      target ≤ s.rowcount →
      scroll value mode s =
        .ok () {s with rownumber := target, offset := target, rows := []} [.policyScroll]) := by
  intro target htarget
  have hmodeok : ¬ (mode ≠ "relative" ∧ mode ≠ "absolute") := by
    rcases hmode with h | h <;> simp [h]
  constructor
  · intro hin
    unfold scroll
    rw [hchk]
    simp only [Bool.false_eq_true, if_false, if_neg hmodeok, ← htarget, if_pos hin]
  · intro hout hle
    unfold scroll
    rw [hchk]
    simp only [Bool.false_eq_true, if_false, if_neg hmodeok, ← htarget, if_neg hout,
      if_neg (not_lt.mpr hle)]

/-- Witness for C6: on a cursor with window [0, 2) over a three-row set, a
relative scroll by 1 is a pure pointer move, and an absolute scroll to 2
(outside the window, within bounds) invalidates the window and notifies
the policy. -/
theorem c6_scroll_frame_witness :
    scroll 1 "relative" {activeCursor with rows := [[1], [2]]} =
      .ok () {activeCursor with rows := [[1], [2]], rownumber := 1} []
    ∧ scroll 2 "absolute" {activeCursor with rows := [[1], [2]]} =
      .ok () {activeCursor with rows := ([] : List (List Nat)), rownumber := 2, offset := 2}
        [.policyScroll] := by
  constructor
  · exact ((c6_scroll_frame {activeCursor with rows := [[1], [2]]} 1 "relative" (by decide)
      (Or.inl rfl)) 1 (by decide)).1 (by decide)
  · exact ((c6_scroll_frame {activeCursor with rows := [[1], [2]]} 2 "absolute" (by decide)
      (Or.inr rfl)) 2 (by decide)).2 (by decide) (by decide)

/-! ### Claim C7 -/

/-- C7: a scroll with a valid mode whose target is beyond the row count
fails with an IndexError — a class distinct from ProgrammingError and
outside the pymonetdb Error hierarchy — and the error is appended to the
cursor's message list before being raised. -/
theorem c7_scroll_beyond_end {Val : Type} (s : CursorState Val) (value : Int) (mode : String)
    (hchk : checkExecutedFails s = false)
    (hmode : mode = "relative" ∨ mode = "absolute")
    (hwin : s.offset + (s.rows.length : Int) ≤ s.rowcount) :
    ∀ target, target = (if mode = "relative" then value + s.rownumber else value) →
    s.rowcount < target →
    scroll value mode s =
      .exn (.indexError, "value beyond length of resultset")
        {s with messages := s.messages ++ [(.indexError, "value beyond length of resultset")]} []
    ∧ ExcClass.indexError ≠ ExcClass.programmingError := by
  intro target htarget hbeyond
  have hmodeok : ¬ (mode ≠ "relative" ∧ mode ≠ "absolute") := by
    rcases hmode with h | h <;> simp [h]
  have hout : ¬ (s.offset ≤ target ∧ target < s.offset + (s.rows.length : Int)) := by
    intro h
    omega
  refine ⟨?_, by decide⟩
  unfold scroll
  rw [hchk]
  simp only [Bool.false_eq_true, if_false, if_neg hmodeok, ← htarget, if_neg hout,
    if_pos hbeyond]

/-- Witness for C7: scrolling the active three-row cursor to absolute
position 5 raises the IndexError and records it. -/
theorem c7_scroll_beyond_end_witness :
    scroll 5 "absolute" activeCursor =
      .exn (.indexError, "value beyond length of resultset")
        {activeCursor with messages := [(.indexError, "value beyond length of resultset")]} []
    ∧ ExcClass.indexError ≠ ExcClass.programmingError :=
  (c7_scroll_beyond_end activeCursor 5 "absolute" (by decide) (Or.inr rfl) (by decide)
    5 (by decide) (by decide))

/-! ### Claim C10 -/

/-- C10: on an active result set with the current row inside the window,
fetchmany with a nonpositive size such that offset is at most
rownumber + size raises no error: it returns the empty list, makes no
transport call, and sets rownumber to min(rownumber + size, rowcount) =
rownumber + size, silently moving the position backwards. -/
theorem c10_fetchmany_nonpositive {Val : Type} (C : Collab Val) (table : List (List Val))
    (s : CursorState Val) (size : Int)
    (hA : Active table s) (hsize : size ≤ 0) (hback : s.offset ≤ s.rownumber + size) :
    fetchmany C table (some size) s =
      .ok [] {s with rownumber := min (s.rownumber + size) s.rowcount} []
    ∧ min (s.rownumber + size) s.rowcount = s.rownumber + size := by
  obtain ⟨h1, h2, h3, h4, h5, h6, h7, h8, h9⟩ := hA
  have hchk : checkExecutedFails s = false := executedFalsy_false h1 h2
  refine ⟨?_, by omega⟩
  unfold fetchmany
  rw [hchk]
  simp only [Bool.false_eq_true, if_false, if_neg h3, Option.getD_some]
  rw [if_pos (show min (s.rownumber + size) s.rowcount ≤ s.offset + (s.rows.length : Int) by omega)]
  rw [pySlice_eq_nil]
  unfold adjIdx
  split_ifs <;> omega

/-- Witness for C10: on the active cursor positioned at row 1 with window
[0, 2), fetchmany of size -1 returns no rows and moves rownumber back to
0. -/
theorem c10_fetchmany_nonpositive_witness :
    fetchmany natCollab table3 (some (-1)) {activeCursor with rownumber := 1, rows := [[1], [2]]} =
      .ok [] {activeCursor with rows := [[1], [2]], rownumber := min ((1 : Int) + (-1)) (3 : Int)} []
    ∧ min ((1 : Int) + (-1)) (3 : Int) = 1 + (-1) := by
  have h := c10_fetchmany_nonpositive natCollab table3
    {activeCursor with rownumber := 1, rows := [[1], [2]]} (-1) (by decide) (by decide) (by decide)
  exact h

/-! ### Claim C9 -/

/-- C9 (code bug evidence): on a cursor holding an active result set with
a cached row, close succeeds and severs the connection reference, and a
subsequent execute raises the programming error cursor is closed — but
fetchone on the closed cursor returns the cached row with no error, and
scroll on the closed cursor also succeeds, contradicting the close
contract that every further operation must raise an Error subclass. -/
theorem c9_close_behavior :
    close activeCursor = .ok () {activeCursor with connection := false} []
    ∧ errOfP (.ok (execute natCollab {activeCursor with connection := false} "select 1" "").stateOf)
      = none
    ∧ (execute natCollab {activeCursor with connection := false} "select 1" "").errOf
        = some (.programmingError, "cursor is closed")
    ∧ (fetchone natCollab table3 {activeCursor with connection := false}).errOf = none
    ∧ (fetchone natCollab table3 {activeCursor with connection := false}).valOf
        = some (some [1])
    ∧ (scroll 0 "absolute" {activeCursor with connection := false}).errOf = none := by
  refine ⟨?_, rfl, by decide, by decide, by decide, by decide⟩
  rfl

/-! ### Claim C1 -/

theorem readI64At_nonneg (e : Endian) (b : List Nat) (off : Int) (h0 : 0 ≤ off)
    (h8 : off.toNat + 8 ≤ b.length) :
    readI64At e b off = some (readInt64 e ((b.drop off.toNat).take 8)) := by
  simp only [readI64At]
  rw [if_neg (not_lt.mpr h0), if_pos ⟨h0, h8⟩]

theorem tocCols_ok {Val : Type} (e : Endian) (block : List Nat) (toc : Int) :
    ∀ (ds : List (Endian → List Nat → List Val)) (i : Nat),
    0 ≤ toc → toc + 16 * ((i : Int) + ds.length) ≤ (block.length : Int) →
    ∃ cols, tocCols e block toc ds i = .ok cols ∧ cols.length = ds.length := by
  intro ds
  induction ds with
  | nil => exact fun i _ _ => ⟨[], rfl, rfl⟩
  | cons d ds ih =>
    intro i h0 hb
    simp only [List.length_cons] at hb
    push_cast at hb
    have h1 := readI64At_nonneg e block (toc + 16 * i) (by omega) (by omega)
    have h2 := readI64At_nonneg e block (toc + 16 * i + 8) (by omega) (by omega)
    obtain ⟨cols, hcols, hclen⟩ := ih (i + 1) h0 (by push_cast; omega)
    set S := readInt64 e ((block.drop (toc + 16 * (i : Int)).toNat).take 8) with hS
    set L := readInt64 e ((block.drop (toc + 16 * (i : Int) + 8).toNat).take 8) with hL
    refine ⟨d e (pySlice block S (S + L)) :: cols, ?_, by simp [hclen]⟩
    unfold tocCols
    rw [h1, h2, hcols]

theorem minLens_eq_zero_of_heads?_none (rest : List (List α)) (h : heads? rest = none) :
    minLens rest = 0 := by
  induction rest with
  | nil => simp [heads?] at h
  | cons l rest ih =>
    cases l with
    | nil =>
      cases rest with
      | nil => rfl
      | cons a b => simp [minLens]
    | cons x xs =>
      simp only [heads?, Option.map_eq_none'] at h
      cases rest with
      | nil => simp [heads?] at h
      | cons a b => simp [minLens, ih h]

theorem minLens_cons_of_heads? :
    ∀ (rest : List (List α)) hs ts x (xs : List α), heads? rest = some (hs, ts) →
    minLens ((x :: xs) :: rest) = minLens (xs :: ts) + 1
  | [], hs, ts, x, xs, h => by
    simp only [heads?, Option.some_inj, Prod.mk.injEq] at h
    obtain ⟨h1, h2⟩ := h
    subst h2
    rfl
  | [] :: rest1, hs, ts, x, xs, h => by simp [heads?] at h
  | (y :: ys) :: rest1, hs, ts, x, xs, h => by
    simp only [heads?, Option.map_eq_some'] at h
    obtain ⟨⟨hs1, ts1⟩, hh, heq⟩ := h
    cases heq
    have hrec := minLens_cons_of_heads? rest1 hs1 ts1 y ys hh
    have e1 : minLens ((x :: xs) :: (y :: ys) :: rest1) =
        min (x :: xs).length (minLens ((y :: ys) :: rest1)) := by
      cases rest1 <;> rfl
    have e2 : minLens (xs :: ys :: ts1) = min xs.length (minLens (ys :: ts1)) := by
      cases ts1 <;> rfl
    rw [e1, hrec, e2]
    simp only [List.length_cons]
    omega

theorem pyZipGo_length (fuel : Nat) :
    ∀ ls : List (List α), (ls.headD []).length ≤ fuel → (pyZipGo fuel ls).length = minLens ls := by
  induction fuel with
  | zero =>
    intro ls h
    match ls with
    | [] => rfl
    | [] :: rest =>
      cases rest with
      | nil => rfl
      | cons a b => simp [pyZipGo, minLens]
    | (x :: xs) :: rest => simp [List.headD] at h
  | succ f ih =>
    intro ls h
    match ls with
    | [] => rfl
    | [] :: rest =>
      cases rest with
      | nil => rfl
      | cons a b => simp [pyZipGo, minLens]
    | (x :: xs) :: rest =>
      simp only [pyZipGo]
      cases hh : heads? rest with
      | none =>
        have h0 := minLens_eq_zero_of_heads?_none rest hh
        cases rest with
        | nil => simp [heads?] at hh
        | cons a b => simp [minLens, h0]
      | some p =>
        obtain ⟨hs, ts⟩ := p
        rw [minLens_cons_of_heads? rest hs ts x xs hh]
        simp only [List.length_cons]
        rw [ih (xs :: ts) (by simp [List.headD] at h ⊢; omega)]

theorem pyZip_length (ls : List (List α)) : (pyZip ls).length = minLens ls :=
  pyZipGo_length (ls.headD []).length ls (le_refl _)

theorem minLens_le (ls : List (List α)) : ∀ c ∈ ls, minLens ls ≤ c.length := by
  induction ls with
  | nil => intro c hc; cases hc
  | cons l ls ih =>
    intro c hc
    cases ls with
    | nil =>
      cases hc with
      | head => exact le_refl _
      | tail _ h => cases h
    | cons l2 ls2 =>
      have hmin : minLens (l :: l2 :: ls2) = min l.length (minLens (l2 :: ls2)) := rfl
      cases hc with
      | head => rw [hmin]; exact min_le_left _ _
      | tail _ h => rw [hmin]; exact le_trans (min_le_right _ _) (ih c h)

theorem minLens_mem (ls : List (List α)) (h : ls ≠ []) : ∃ c ∈ ls, minLens ls = c.length := by
  induction ls with
  | nil => exact absurd rfl h
  | cons l ls ih =>
    cases ls with
    | nil => exact ⟨l, by simp, rfl⟩
    | cons l2 ls2 =>
      have hmin : minLens (l :: l2 :: ls2) = min l.length (minLens (l2 :: ls2)) := rfl
      obtain ⟨c, hc, hm⟩ := ih (by simp)
      rcases le_total l.length (minLens (l2 :: ls2)) with hle | hle
      · exact ⟨l, by simp, by rw [hmin]; exact min_eq_left hle⟩
      · exact ⟨c, List.mem_cons_of_mem _ hc, by rw [hmin, min_eq_right hle, hm]⟩

/-- C1 (counterexample): a well-formed 40-byte binary block (trailing
pointer 0, zero TOC) whose two column decoders return two values and one
value: binary decoding does not fail — it returns successfully with a
single row, truncating the longer column. -/
theorem c1_counterexample :
    errOfP (storeBinaryResult mismatchedDecoders freshCursor zeroTocBlock) = none
    ∧ (storeBinaryResult mismatchedDecoders freshCursor zeroTocBlock).toOption
        = some {freshCursor with rows := [[10, 20]]}
    ∧ (mismatchedDecoders.map (fun d => (d .little []).length)) = [2, 1] := by
  refine ⟨by decide, by decide, by decide⟩

/-- C1 (amended): for every binary block of at least 8 bytes whose
trailing pointer is nonnegative and whose TOC fits in the block, decoding
raises no error even when the per-column decoders return sequences of
unequal row counts: it succeeds, and the resulting row list is the
transposition truncated to the shortest column's row count (the row count
equals the minimum of the column lengths, witnessed by some column). -/
theorem c1_amended {Val : Type} (decoders : List (Endian → List Nat → List Val))
    (s : CursorState Val) (block : List Nat) (h8 : 8 ≤ block.length) :
    ∀ toc, toc = readInt64 s.serverEndian ((block.drop (block.length - 8)).take 8) →
    0 ≤ toc → toc + 16 * (decoders.length : Int) ≤ (block.length : Int) →
    ∃ cols, tocCols s.serverEndian block toc decoders 0 = .ok cols
      ∧ storeBinaryResult decoders s block = .ok {s with rows := pyZip cols}
      ∧ cols.length = decoders.length
      ∧ (pyZip cols).length = minLens cols
      ∧ (∀ c ∈ cols, (pyZip cols).length ≤ c.length)
      ∧ (decoders ≠ [] → ∃ c ∈ cols, (pyZip cols).length = c.length) := by
  intro toc htoc h0 hfit
  obtain ⟨cols, hcols, hclen⟩ :=
    tocCols_ok s.serverEndian block toc decoders 0 h0 (by push_cast at hfit ⊢; omega)
  refine ⟨cols, hcols, ?_, hclen, pyZip_length cols, ?_, ?_⟩
  · unfold storeBinaryResult
    rw [if_neg (by omega), ← htoc, if_neg (not_lt.mpr h0), hcols]
  · intro c hc
    rw [pyZip_length]
    exact minLens_le cols c hc
  · intro hne
    rw [pyZip_length]
    exact minLens_mem cols (by intro hnil; rw [hnil] at hclen; exact hne (List.eq_nil_of_length_eq_zero hclen.symm))

/-- Witness for C1 (amended): the amended theorem evaluated on the
concrete mismatched-decoder block of the counterexample. -/
theorem c1_amended_witness :
    ∃ cols, tocCols Endian.little zeroTocBlock 0 mismatchedDecoders 0 = .ok cols
      ∧ storeBinaryResult mismatchedDecoders freshCursor zeroTocBlock =
          .ok {freshCursor with rows := pyZip cols}
      ∧ cols.length = mismatchedDecoders.length
      ∧ (pyZip cols).length = minLens cols
      ∧ (∀ c ∈ cols, (pyZip cols).length ≤ c.length)
      ∧ (mismatchedDecoders ≠ [] → ∃ c ∈ cols, (pyZip cols).length = c.length) :=
  c1_amended mismatchedDecoders freshCursor zeroTocBlock (by decide) 0 (by decide) (by decide)
    (by decide)

/-! ### Claim C2 -/

theorem isDone_raisedLog {Val : Type} (e : Err) (s : CursorState Val) (loc : Locals) :
    (raisedLog e s loc).isDone = false := rfl

theorem isDone_rebuildDescription {Val : Type} (s : CursorState Val) (loc : Locals) :
    (rebuildDescription s loc).isDone = false := by
  unfold rebuildDescription
  split <;> rfl

theorem isDone_parseTupleAppend {Val : Type} (C : Collab Val) (s : CursorState Val)
    (loc : Locals) (line : String) : (parseTupleAppend C s loc line).isDone = false := by
  simp only [parseTupleAppend]
  repeat' split
  all_goals rfl

theorem isDone_processHeader {Val : Type} (s : CursorState Val) (loc : Locals)
    (values : List String) (identity : String) :
    (processHeader s loc values identity).isDone = false := by
  simp only [processHeader]
  repeat' split
  all_goals first | rfl | exact isDone_rebuildDescription _ _

theorem isDone_processQTable {Val : Type} (ue : Bool) (s : CursorState Val) (loc : Locals)
    (line : String) : (processQTable ue s loc line).isDone = false := by
  simp only [processQTable]
  repeat' split
  all_goals rfl

theorem isDone_processQUpdate {Val : Type} (s : CursorState Val) (loc : Locals)
    (line : String) : (processQUpdate s loc line).isDone = false := by
  simp only [processQUpdate]
  repeat' split
  all_goals rfl

/-- Inversion: the line loop stops successfully only at a prompt line. -/
theorem storeLine_done_eq {Val : Type} {C : Collab Val} {ue : Bool} {s : CursorState Val}
    {loc : Locals} {line : String} {s2 : CursorState Val} {loc2 : Locals}
    (h : storeLine C ue s loc line = .done s2 loc2) : line = MSG_PROMPT := by
  unfold storeLine at h
  by_cases h1 : pyTake line 1 = MSG_TUPLE
  · rw [if_pos h1] at h
    have hd : (parseTupleAppend C s loc line).isDone = true := by rw [h]; rfl
    rw [isDone_parseTupleAppend] at hd
    exact Bool.noConfusion hd
  rw [if_neg h1] at h
  by_cases h2 : pyTake line 1 = MSG_HEADER
  · rw [if_pos h2] at h
    rcases hm : pySplit (pyDrop line 1) "#" with _ | ⟨d, _ | ⟨i2, _ | ⟨x, rest3⟩⟩⟩ <;>
      rw [hm] at h <;> dsimp only at h
    · exact StepR.noConfusion h
    · exact StepR.noConfusion h
    · have hd : (processHeader s loc ((pySplit d ",").map pyStrip) (pyStrip i2)).isDone = true := by
        rw [h]; rfl
      rw [isDone_processHeader] at hd
      exact Bool.noConfusion hd
    · exact StepR.noConfusion h
  rw [if_neg h2] at h
  by_cases h3 : pyStartsWith line MSG_INFO = true
  · rw [if_pos h3] at h
    exact StepR.noConfusion h
  rw [if_neg h3] at h
  by_cases h4 : (pyStartsWith line MSG_QTABLE || pyStartsWith line MSG_QPREPARE) = true
  · rw [if_pos h4] at h
    have hd : (processQTable ue s loc line).isDone = true := by rw [h]; rfl
    rw [isDone_processQTable] at hd
    exact Bool.noConfusion hd
  rw [if_neg h4] at h
  by_cases h5 : pyStartsWith line MSG_TUPLE_NOSLICE = true
  · rw [if_pos h5] at h
    exact StepR.noConfusion h
  rw [if_neg h5] at h
  by_cases h6 : pyStartsWith line MSG_QBLOCK = true
  · rw [if_pos h6] at h
    exact StepR.noConfusion h
  rw [if_neg h6] at h
  by_cases h7 : pyStartsWith line MSG_QSCHEMA = true
  · rw [if_pos h7] at h
    exact StepR.noConfusion h
  rw [if_neg h7] at h
  by_cases h8 : pyStartsWith line MSG_QUPDATE = true
  · rw [if_pos h8] at h
    have hd : (processQUpdate s loc line).isDone = true := by rw [h]; rfl
    rw [isDone_processQUpdate] at hd
    exact Bool.noConfusion hd
  rw [if_neg h8] at h
  by_cases h9 : pyStartsWith line MSG_QTRANS = true
  · rw [if_pos h9] at h
    exact StepR.noConfusion h
  rw [if_neg h9] at h
  by_cases h10 : line = MSG_PROMPT
  · exact h10
  rw [if_neg h10] at h
  by_cases h11 : pyStartsWith line MSG_ERROR = true
  · rw [if_pos h11] at h
    have hd : (raisedLog (ExcClass.programmingError, pyDrop line 1) s loc).isDone = true := by
      rw [h]; rfl
    rw [isDone_raisedLog] at hd
    exact Bool.noConfusion hd
  rw [if_neg h11] at h
  exact StepR.noConfusion h

/-- A finished parse saw a prompt line. -/
theorem storeLines_finished_prompt {Val : Type} {C : Collab Val} {ue : Bool} :
    ∀ (lines : List String) (s : CursorState Val) (loc : Locals) s2 loc2,
    storeLines C ue s loc lines = .finished s2 loc2 → MSG_PROMPT ∈ lines := by
  intro lines
  induction lines with
  | nil =>
    intro s loc s2 loc2 h
    simp only [storeLines] at h
    exact ParseOut.noConfusion h
  | cons l rest ih =>
    intro s loc s2 loc2 h
    unfold storeLines at h
    cases hstep : storeLine C ue s loc l with
    | next s3 loc3 =>
      rw [hstep] at h
      exact List.mem_cons_of_mem _ (ih _ _ _ _ h)
    | done s3 loc3 =>
      have hp := storeLine_done_eq hstep
      subst hp
      exact List.mem_cons_self _ _
    | raised e s3 loc3 =>
      rw [hstep] at h
      exact ParseOut.noConfusion h

/-- A parse whose every line always steps exhausts the block. -/
theorem storeLines_allSteps {Val : Type} {C : Collab Val} {ue : Bool} :
    ∀ (lines : List String) (s : CursorState Val) (loc : Locals),
    (∀ l ∈ lines, AlwaysSteps C ue l) →
    ∃ s2 loc2, storeLines C ue s loc lines = .exhausted s2 loc2 := by
  intro lines
  induction lines with
  | nil => exact fun s loc _ => ⟨s, loc, rfl⟩
  | cons l rest ih =>
    intro s loc hall
    obtain ⟨s2, loc2, hstep⟩ := hall l (List.mem_cons_self _ _) s loc
    obtain ⟨s3, loc3, hrest⟩ := ih s2 loc2 (fun l2 hl2 => hall l2 (List.mem_cons_of_mem _ hl2))
    refine ⟨s3, loc3, ?_⟩
    unfold storeLines
    rw [hstep]
    exact hrest

/-- C2 (amended): parsing succeeds only when the block contains a prompt
line, so every block lacking a prompt line fails with some raised error
(not necessarily the unknown-state interface error: a server error line,
for instance, raises first); and when every line of the block merely
continues the loop, the parse fails with exactly the interface error
whose message is Unknown state followed by the offending block. -/
theorem c2_prompt_termination {Val : Type} (C : Collab Val) (s : CursorState Val)
    (block : String) :
    ((storeResult C false s block).toOption.isSome = true → MSG_PROMPT ∈ pySplit block "\n")
    ∧ (MSG_PROMPT ∉ pySplit block "\n" → (errOfP (storeResult C false s block)).isSome = true)
    ∧ ((∀ l ∈ pySplit block "\n", AlwaysSteps C false l) →
        errOfP (storeResult C false s block) = some (.interfaceError, "Unknown state, " ++ block)) := by
  refine ⟨?_, ?_, ?_⟩
  · intro hok
    unfold storeResult at hok
    simp only [if_false, Bool.false_eq_true] at hok
    cases hres : storeLines C false {s with nextResultSets := []} Locals.init
        (pySplit block "\n") with
    | finished s2 loc2 => exact storeLines_finished_prompt _ _ _ _ _ hres
    | exhausted s2 loc2 => rw [hres] at hok; simp [Except.toOption] at hok
    | failed e s2 loc2 => rw [hres] at hok; simp [Except.toOption] at hok
  · intro hnp
    unfold storeResult
    simp only [if_false, Bool.false_eq_true]
    cases hres : storeLines C false {s with nextResultSets := []} Locals.init
        (pySplit block "\n") with
    | finished s2 loc2 => exact absurd (storeLines_finished_prompt _ _ _ _ _ hres) hnp
    | exhausted s2 loc2 => rfl
    | failed e s2 loc2 => rfl
  · intro hall
    obtain ⟨s2, loc2, hres⟩ :=
      storeLines_allSteps (pySplit block "\n") {s with nextResultSets := []} Locals.init hall
    unfold storeResult
    simp only [if_false, Bool.false_eq_true]
    rw [hres]
    rfl

/-- C2 (counterexample): the one-line block of a server error line and no
prompt fails with ProgrammingError boom — not with an interface error
saying unknown state — refuting the claim's second half as stated. -/
theorem c2_counterexample :
    errOfP (storeResult natCollab false freshCursor "!boom") = some (.programmingError, "boom")
    ∧ MSG_PROMPT ∉ pySplit "!boom" "\n"
    ∧ (ExcClass.programmingError, "boom") ≠
        ((ExcClass.interfaceError : ExcClass), "Unknown state, " ++ "!boom") :=
  ⟨by decide, by decide, by decide⟩

/-- Witness for C2 (amended): a two-info-line block with no prompt ends in
the unknown-state interface error, and the error-line block fails with
some error. -/
theorem c2_prompt_termination_witness :
    errOfP (storeResult natCollab false freshCursor "#a\n#b") =
      some (.interfaceError, "Unknown state, " ++ "#a\n#b")
    ∧ (errOfP (storeResult natCollab false freshCursor "!boom")).isSome = true := by
  constructor
  · refine (c2_prompt_termination natCollab freshCursor "#a\n#b").2.2 ?_
    intro l hl
    rw [show pySplit "#a\n#b" "\n" = ["#a", "#b"] from by decide] at hl
    simp only [List.mem_cons, List.mem_singleton, List.not_mem_nil, or_false] at hl
    rcases hl with rfl | rfl
    · exact fun s loc => ⟨_, _, rfl⟩
    · exact fun s loc => ⟨_, _, rfl⟩
  · exact (c2_prompt_termination natCollab freshCursor "!boom").2.1 (by decide)

/-! ### Claim C8 -/

theorem pyGet_ofNat (l : List α) (n : Nat) : pyGet l (n : Int) = l[n]? := by
  unfold pyGet
  rw [if_neg (show ¬ ((n : Int) < 0) from by omega)]
  simp

theorem pySet_ofNat (l : List α) (n : Nat) (a : α) (h : n < l.length) :
    pySet l (n : Int) a = some (l.set n a) := by
  unfold pySet
  rw [if_neg (show ¬ ((n : Int) < 0) from by omega)]
  simp [h]

theorem mapM_option_pointwise {α β : Type} (f : α → Option β) :
    ∀ (l : List α) (g : Nat → β),
    (∀ j (hj : j < l.length), f l[j] = some (g j)) →
    l.mapM f = some ((List.range l.length).map g) := by
  intro l
  induction l with
  | nil => intro g _; rfl
  | cons a l ih =>
    intro g h
    have h0 : f a = some (g 0) := h 0 (by simp)
    have ht := ih (fun j => g (j + 1)) (fun j hj => by
      have := h (j + 1) (by simpa using Nat.succ_lt_succ hj)
      simpa using this)
    rw [List.mapM_cons, h0, ht]
    simp [List.range_succ_eq_map, List.map_map, Function.comp]

theorem decimalLoop_spec (tsz : List (List Int)) (p q : Nat → Int)
    (htsz : ∀ j, j < tsz.length → tsz[j]? = some [p j, q j]) :
    ∀ (tys : List (Option String)) (num : Nat) (prec sc : List (Option Int)),
    prec.length = tsz.length → sc.length = tsz.length → num + tys.length = tsz.length →
    ∃ P S, decimalLoop tsz tys num prec sc = some (P, S)
      ∧ P.length = tsz.length ∧ S.length = tsz.length
      ∧ (∀ j, j < num → P[j]? = prec[j]? ∧ S[j]? = sc[j]?)
      ∧ (∀ j, num ≤ j → j < tsz.length →
          (tys[j - num]? = some (some "decimal") →
            P[j]? = some (some (p j)) ∧ S[j]? = some (some (q j)))
          ∧ (tys[j - num]? ≠ some (some "decimal") →
            P[j]? = prec[j]? ∧ S[j]? = sc[j]?)) := by
  intro tys
  induction tys with
  | nil =>
    intro num prec sc hp hs hn
    refine ⟨prec, sc, rfl, hp, hs, fun j _ => ⟨rfl, rfl⟩, fun j hj hj2 => absurd hj2 (by simp at hn; omega)⟩
  | cons t rest ih =>
    intro num prec sc hp hs hn
    simp only [List.length_cons] at hn
    have hnum : num < tsz.length := by omega
    by_cases ht : t = some "decimal"
    · have hg : pyGet tsz (num : Int) = some [p num, q num] := by
        rw [pyGet_ofNat]
        exact htsz num hnum
      have hsetp := pySet_ofNat prec (num : Nat) (some (p num)) (by omega)
      have hsets := pySet_ofNat sc (num : Nat) (some (q num)) (by omega)
      obtain ⟨P, S, heq, hPl, hSl, hproc, htail⟩ := ih (num + 1)
        (prec.set num (some (p num))) (sc.set num (some (q num)))
        (by simp [hp]) (by simp [hs]) (by omega)
      refine ⟨P, S, ?_, hPl, hSl, ?_, ?_⟩
      · unfold decimalLoop
        rw [if_pos ht, hg]
        dsimp only
        rw [show pyGet [p num, q num] (0 : Int) = some (p num) from rfl]
        dsimp only
        rw [hsetp]
        dsimp only
        rw [show pyGet [p num, q num] (1 : Int) = some (q num) from rfl]
        dsimp only
        rw [hsets]
        exact heq
      · intro j hj
        obtain ⟨e1, e2⟩ := hproc j (by omega)
        rw [e1, e2, List.getElem?_set_ne (by omega), List.getElem?_set_ne (by omega)]
        exact ⟨rfl, rfl⟩
      · intro j hj hj2
        rcases Nat.eq_or_lt_of_le hj with hje | hjl
        · obtain ⟨e1, e2⟩ := hproc j (by omega)
          constructor
          · intro _
            rw [e1, e2, ← hje, List.getElem?_set_eq_of_lt _ (by omega),
              List.getElem?_set_eq_of_lt _ (by omega)]
            rw [hje]
            exact ⟨rfl, rfl⟩
          · intro hcon
            rw [show j - num = 0 from by omega] at hcon
            simp [ht] at hcon
        · have hidx : (t :: rest)[j - num]? = rest[j - (num + 1)]? := by
            rw [show j - num = (j - (num + 1)) + 1 from by omega]
            simp
          rw [hidx]
          obtain ⟨c1, c2⟩ := htail j (by omega) hj2
          constructor
          · intro hdec
            exact c1 hdec
          · intro hnd
            obtain ⟨e1, e2⟩ := c2 hnd
            rw [e1, e2, List.getElem?_set_ne (by omega), List.getElem?_set_ne (by omega)]
            exact ⟨rfl, rfl⟩
    · obtain ⟨P, S, heq, hPl, hSl, hproc, htail⟩ := ih (num + 1) prec sc hp hs (by omega)
      refine ⟨P, S, ?_, hPl, hSl, ?_, ?_⟩
      · unfold decimalLoop
        rw [if_neg ht]
        exact heq
      · intro j hj
        exact hproc j (by omega)
      · intro j hj hj2
        rcases Nat.eq_or_lt_of_le hj with hje | hjl
        · constructor
          · intro hdec
            rw [show j - num = 0 from by omega] at hdec
            simp at hdec
            exact absurd hdec ht
          · intro _
            exact hproc j (by omega)
        · have hidx : (t :: rest)[j - num]? = rest[j - (num + 1)]? := by
            rw [show j - num = (j - (num + 1)) + 1 from by omega]
            simp
          rw [hidx]
          obtain ⟨c1, c2⟩ := htail j (by omega) hj2
          exact ⟨c1, c2⟩

theorem syncQ_description {Val : Type} (s : CursorState Val) (loc : Locals) :
    (syncQ s loc).description = s.description := by
  unfold syncQ
  split <;> rfl

theorem getElem?_replicate_lt (a : α) {j n : Nat} (h : j < n) :
    (List.replicate n a)[j]? = some a := by
  rw [List.getElem?_eq_getElem (by simpa using h)]
  simp

theorem buildColDescs_spec (loc : Locals) (n : Nat) (types : List (Option String))
    (p q : Nat → Int) (P S : List (Option Int))
    (hcols : loc.columns = (n : Int))
    (hname : loc.column_name = List.replicate n none)
    (htypes : loc.type_ = types) (htn : types.length = n)
    (hdisp : loc.display_sizeA = List.replicate n none)
    (hint : loc.internal_sizeA = (List.range n).map (fun j => some (p j)))
    (hprecf : loc.precisionA = P)
    (hPspec : ∀ j, j < n →
      P[j]? = some (if (types[j]?).getD none = some "decimal" then some (p j) else none))
    (hscalef : loc.scaleA = S)
    (hSspec : ∀ j, j < n →
      S[j]? = some (if (types[j]?).getD none = some "decimal" then some (q j) else none))
    (hnull : loc.null_okA = List.replicate n none) :
    buildColDescs loc = some ((List.range n).map (typesizesEntry types p q)) := by
  unfold buildColDescs
  rw [hcols, show ((n : Int)).toNat = n from by omega]
  rw [show (List.range n).map (typesizesEntry types p q) =
    (List.range (List.range n).length).map (typesizesEntry types p q) from by
      rw [List.length_range]]
  apply mapM_option_pointwise
  intro j hj
  have hjn : j < n := by simpa using hj
  rw [List.getElem_range]
  have hty : types[j]? = some ((types[j]?).getD none) := by
    rw [List.getElem?_eq_getElem (by omega)]
    rfl
  have hintj : ((List.range n).map (fun i => some (p i)))[j]? = some (some (p j)) := by
    rw [List.getElem?_map, List.getElem?_range hjn]
    rfl
  simp only [hname, htypes, hdisp, hint, hprecf, hscalef, hnull, pyGet_ofNat]
  rw [getElem?_replicate_lt _ hjn, getElem?_replicate_lt _ hjn, getElem?_replicate_lt _ hjn,
    hty, hintj, hPspec j hjn, hSspec j hjn]
  rfl

/-! ### Claim C8 statement -/

/-- C8: after a query-table line allocated fresh per-column metadata
arrays for n columns and a type header declared the column types, a
typesizes header line whose j-th value carries the two integers p j and
q j produces a description whose j-th entry has internal size p j; for a
column whose type tag is decimal its precision becomes p j and its scale
q j, while for every other column precision and scale stay unset. In
particular a decimal column with value 10 2 gets precision 10, scale 2
and internal size 10. -/
theorem c8_typesizes {Val : Type} (s : CursorState Val) (loc : Locals)
    (n : Nat) (types : List (Option String)) (values : List String) (p q : Nat → Int)
    (hcols : loc.columns = (n : Int))
    (htypes : loc.type_ = types) (htn : types.length = n)
    (hname : loc.column_name = List.replicate n none)
    (hdisp : loc.display_sizeA = List.replicate n none)
    (hprec : loc.precisionA = List.replicate n none)
    (hscale : loc.scaleA = List.replicate n none)
    (hnull : loc.null_okA = List.replicate n none)
    (hvn : values.length = n)
    (hvals : ∀ j (hj : j < n), intsOfField (values.get ⟨j, by omega⟩) = some [p j, q j]) :
    ∃ s2 loc2 d, processHeader s loc values "typesizes" = .next s2 loc2
      ∧ s2.description = some d ∧ d.length = n
      ∧ ∀ j (hj : j < n), ∃ ty, types[j]? = some ty ∧
          d[j]? = some ⟨none, ty, none, some (p j),
            (if ty = some "decimal" then some (p j) else none),
            (if ty = some "decimal" then some (q j) else none), none⟩ := by
  have hmapM : values.mapM intsOfField = some ((List.range n).map (fun j => [p j, q j])) := by
    have := mapM_option_pointwise intsOfField values (fun j => [p j, q j])
      (fun j hj => hvals j (by omega))
    rw [hvn] at this
    exact this
  have htszget : ∀ j, j < ((List.range n).map (fun j => [p j, q j])).length →
      ((List.range n).map (fun j => [p j, q j]))[j]? = some [p j, q j] := by
    intro j hj
    have hjn : j < n := by simpa using hj
    rw [List.getElem?_map, List.getElem?_range hjn]
    rfl
  have hfirsts : ((List.range n).map (fun j => [p j, q j])).mapM (fun x => pyGet x 0) =
      some ((List.range n).map (fun j => p j)) := by
    have := mapM_option_pointwise (fun x => pyGet x 0)
      ((List.range n).map (fun j => [p j, q j])) (fun j => p j) ?_
    · simpa using this
    · intro j hj
      have hjn : j < n := by simpa using hj
      have : ((List.range n).map (fun j => [p j, q j]))[j] = [p j, q j] := by
        simp
      rw [this]
      rfl
  obtain ⟨P, S, hloop, hPl, hSl, hproc0, htail0⟩ :=
    decimalLoop_spec ((List.range n).map (fun j => [p j, q j])) p q htszget types 0
      (List.replicate n none) (List.replicate n none)
      (by simp) (by simp) (by simp [htn])
  have hPspec : ∀ j, j < n →
      P[j]? = some (if (types[j]?).getD none = some "decimal" then some (p j) else none) := by
    intro j hjn
    have hty : types[j]? = some ((types[j]?).getD none) := by
      rw [List.getElem?_eq_getElem (by omega)]
      rfl
    obtain ⟨cdec, cnot⟩ := htail0 j (Nat.zero_le j) (by simpa using hjn)
    by_cases hd : (types[j]?).getD none = some "decimal"
    · rw [if_pos hd]
      exact (cdec (by rw [Nat.sub_zero, hty, hd])).1
    · rw [if_neg hd]
      have := (cnot (by rw [Nat.sub_zero, hty]; intro hcon; exact hd (by injection hcon))).1
      rw [this, getElem?_replicate_lt _ hjn]
  have hSspec : ∀ j, j < n →
      S[j]? = some (if (types[j]?).getD none = some "decimal" then some (q j) else none) := by
    intro j hjn
    have hty : types[j]? = some ((types[j]?).getD none) := by
      rw [List.getElem?_eq_getElem (by omega)]
      rfl
    obtain ⟨cdec, cnot⟩ := htail0 j (Nat.zero_le j) (by simpa using hjn)
    by_cases hd : (types[j]?).getD none = some "decimal"
    · rw [if_pos hd]
      exact (cdec (by rw [Nat.sub_zero, hty, hd])).2
    · rw [if_neg hd]
      have := (cnot (by rw [Nat.sub_zero, hty]; intro hcon; exact hd (by injection hcon))).2
      rw [this, getElem?_replicate_lt _ hjn]
  have hbuild := buildColDescs_spec
    ({loc with internal_sizeA := ((List.range n).map (fun j => p j)).map some, precisionA := P, scaleA := S})
    n types p q P S hcols hname htypes htn hdisp (by simp [List.map_map, Function.comp]) rfl
    hPspec rfl hSspec hnull
  rw [htypes] at hbuild
  have hph : processHeader s loc values "typesizes" =
      .next (syncQ {s with
          description := some ((List.range n).map (typesizesEntry types p q)), offset := 0}
        ({loc with internal_sizeA := ((List.range n).map (fun j => p j)).map some, precisionA := P, scaleA := S}))
        ({loc with internal_sizeA := ((List.range n).map (fun j => p j)).map some, precisionA := P, scaleA := S}) := by
    unfold processHeader
    rw [if_neg (by decide), if_neg (by decide), if_neg (by decide), if_neg (by decide),
      if_pos rfl, hmapM]
    dsimp only
    rw [hfirsts]
    dsimp only
    rw [htypes, hprec, hscale, hloop]
    dsimp only
    unfold rebuildDescription
    rw [hbuild]
  refine ⟨_, _, (List.range n).map (typesizesEntry types p q), hph, ?_, ?_, ?_⟩
  · rw [syncQ_description]
  · simp
  · intro j hj
    refine ⟨(types[j]?).getD none, ?_, ?_⟩
    · rw [List.getElem?_eq_getElem (by omega)]
      rfl
    · rw [List.getElem?_map, List.getElem?_range hj]
      rfl

/-- Witness for C8: two columns, one decimal and one varchar, with
typesizes values 10 2 and 20 0: the decimal column's entry gets precision
10, scale 2 and internal size 10; the varchar column's entry gets internal
size 20 and unset precision and scale. -/
theorem c8_typesizes_witness :
    ∃ s2 loc2 d, processHeader freshCursor
        (⟨2, List.replicate 2 none, List.replicate 2 none, List.replicate 2 none,
          List.replicate 2 none, List.replicate 2 none, List.replicate 2 none,
          [some "decimal", some "varchar"], false, false⟩ : Locals)
        ["10 2", "20 0"] "typesizes" = .next s2 loc2
      ∧ s2.description = some d ∧ d.length = 2
      ∧ ∀ j (hj : j < 2), ∃ ty,
          ([some "decimal", some "varchar"] : List (Option String))[j]? = some ty ∧
          d[j]? = some ⟨none, ty, none, some (if j = 0 then 10 else 20),
            (if ty = some "decimal" then some (if j = 0 then 10 else 20) else none),
            (if ty = some "decimal" then some (if j = 0 then 2 else 0) else none), none⟩ :=
  c8_typesizes freshCursor _ 2 [some "decimal", some "varchar"] ["10 2", "20 0"]
    (fun j => if j = 0 then 10 else 20) (fun j => if j = 0 then 2 else 0)
    rfl rfl (by decide) rfl rfl rfl rfl rfl (by decide) (by decide)

/-! ### Claims C4 and C5: the windowed fetch engine -/

theorem pySlice_window {Val : Type} (table rows : List (List Val)) (o a b : Int)
    (ho : 0 ≤ o) (hw : rows = (table.drop o.toNat).take rows.length)
    (ha : 0 ≤ a) (hab : a ≤ b) (hb : b ≤ (rows.length : Int)) :
    pySlice rows a b = (table.drop (o + a).toNat).take (b - a).toNat := by
  unfold pySlice adjIdx
  rw [if_neg (not_lt.mpr (le_trans ha hab)), if_neg (not_lt.mpr ha),
    show min b.toNat rows.length = b.toNat from by omega,
    show min a.toNat rows.length = a.toNat from by omega]
  conv_lhs => rw [hw]
  rw [List.take_take, show min b.toNat rows.length = b.toNat from by omega, List.drop_take,
    List.drop_drop, show o.toNat + a.toNat = (o + a).toNat from by omega,
    show b.toNat - a.toNat = (b - a).toNat from by omega]

theorem populateCache_eq {Val : Type} (C : Collab Val) (table : List (List Val))
    (s : CursorState Val) (al re : Int) :
    populateCache C table s al re =
      ({s with
          offset := s.rownumber,
          canBindecode := some (s.canBindecode.getD C.bindecodeOutcome),
          rows := serverRows table s.rownumber (C.batchSize al s.rownumber re s.rowcount)},
       [exportEvent (s.canBindecode.getD C.bindecodeOutcome) (queryIdStr s) s.rownumber
         (C.batchSize al s.rownumber re s.rowcount)]) := by
  cases hcb : s.canBindecode with
  | none => simp [populateCache, hcb, queryIdStr]
  | some b => simp [populateCache, hcb, queryIdStr]

theorem serverRows_length {Val : Type} (table : List (List Val)) (a c : Int) :
    (serverRows table a c).length = min c.toNat (table.length - a.toNat) := by
  simp [serverRows]

theorem serverRows_window {Val : Type} (table : List (List Val)) (a c : Int) :
    serverRows table a c = (table.drop a.toNat).take (serverRows table a c).length := by
  unfold serverRows
  rw [List.take_eq_take]
  simp

theorem fetchmany_spec {Val : Type} (C : Collab Val) (table : List (List Val))
    (s : CursorState Val) (k : Int) (hA : Active table s) (hpol : PolicyAdequate C)
    (hk : 0 ≤ k) :
    ∃ s2 evs, fetchmany C table (some k) s =
        .ok ((table.drop s.rownumber.toNat).take
          (min (s.rownumber + k) s.rowcount - s.rownumber).toNat) s2 evs
      ∧ Active table s2 ∧ s2.rownumber = min (s.rownumber + k) s.rowcount := by
  obtain ⟨h1, h2, h3, h4, h5, h6, h7, h8, h9⟩ := hA
  have hchk : checkExecutedFails s = false := executedFalsy_false h1 h2
  have hrn0 : 0 ≤ s.rownumber := le_trans h5 h8
  unfold fetchmany
  rw [hchk]
  simp only [Bool.false_eq_true, if_false, if_neg h3, Option.getD_some]
  by_cases hbr : min (s.rownumber + k) s.rowcount ≤ s.offset + (s.rows.length : Int)
  · rw [if_pos hbr]
    refine ⟨{s with rownumber := min (s.rownumber + k) s.rowcount}, [], ?_, ?_, rfl⟩
    · rw [pySlice_window table s.rows s.offset (s.rownumber - s.offset)
        (min (s.rownumber + k) s.rowcount - s.offset) h5 h6 (by omega) (by omega) (by omega),
        show s.offset + (s.rownumber - s.offset) = s.rownumber from by ring,
        show min (s.rownumber + k) s.rowcount - s.offset - (s.rownumber - s.offset) =
          min (s.rownumber + k) s.rowcount - s.rownumber from by ring]
    · exact ⟨h1, h2, h3, h4, h5, h6, h7, by simp; omega, by simp; omega⟩
  · rw [if_neg hbr]
    try dsimp only
    rw [populateCache_eq]
    try dsimp only
    have hres1 : pySlice s.rows (s.rownumber - s.offset)
        (s.offset + (s.rows.length : Int) - s.offset) =
        (table.drop s.rownumber.toNat).take
          (s.offset + (s.rows.length : Int) - s.rownumber).toNat := by
      rw [pySlice_window table s.rows s.offset (s.rownumber - s.offset)
        (s.offset + (s.rows.length : Int) - s.offset) h5 h6 (by omega) (by omega) (by omega),
        show s.offset + (s.rownumber - s.offset) = s.rownumber from by ring,
        show s.offset + (s.rows.length : Int) - s.offset - (s.rownumber - s.offset) =
          s.offset + (s.rows.length : Int) - s.rownumber from by ring]
    rw [hres1]
    set ce := s.offset + (s.rows.length : Int) with hce
    set re := min (s.rownumber + k) s.rowcount with hre
    set b := C.batchSize
      (((table.drop s.rownumber.toNat).take (ce - s.rownumber).toNat).length : Int) ce re
      s.rowcount with hb
    have hbatch : re - ce ≤ b := hpol _ _ _ _
    have hcelt : ce < re := by omega
    have hre_n : re ≤ (table.length : Int) := by omega
    have hlen2 : (serverRows table ce b).length = min b.toNat (table.length - ce.toNat) :=
      serverRows_length table ce b
    have hres2 : pySlice (serverRows table ce b) (ce - ce) (re - ce) =
        (table.drop ce.toNat).take (re - ce).toNat := by
      rw [pySlice_window table (serverRows table ce b) ce (ce - ce) (re - ce)
        (by omega) (serverRows_window table ce b) (by omega) (by omega) (by omega),
        show ce + (ce - ce) = ce from by ring,
        show re - ce - (ce - ce) = re - ce from by ring]
    rw [hres2]
    have hconcat : (table.drop s.rownumber.toNat).take (ce - s.rownumber).toNat ++
        (table.drop ce.toNat).take (re - ce).toNat =
        (table.drop s.rownumber.toNat).take (re - s.rownumber).toNat := by
      rw [show (re - s.rownumber).toNat = (ce - s.rownumber).toNat + (re - ce).toNat from by
        omega, List.take_add, List.drop_drop,
        show s.rownumber.toNat + (ce - s.rownumber).toNat = ce.toNat from by omega]
    rw [hconcat]
    refine ⟨_, _, rfl, ?_, rfl⟩
    refine ⟨h1, h2, h3, h4, ?_, ?_, ?_, ?_, ?_⟩
    · show (0 : Int) ≤ ce
      omega
    · exact serverRows_window table ce b
    · show ce + ((serverRows table ce b).length : Int) ≤ s.rowcount
      rw [hlen2]
      omega
    · show ce ≤ re
      omega
    · show re ≤ ce + ((serverRows table ce b).length : Int)
      rw [hlen2]
      omega

theorem pyGet_window {Val : Type} (table rows : List (List Val)) (o i : Int)
    (ho : 0 ≤ o) (hw : rows = (table.drop o.toNat).take rows.length)
    (hi : 0 ≤ i) (hil : i < (rows.length : Int)) :
    pyGet rows i = table[(o + i).toNat]? := by
  unfold pyGet
  rw [if_neg (not_lt.mpr hi)]
  conv_lhs => rw [hw]
  rw [List.getElem?_take, if_pos (show i.toNat < rows.length from by omega),
    List.getElem?_drop]
  congr 1
  omega

/-- **C4**: in state result-set-active, fetchone at or past the row count
returns none in the unchanged state with no collaborator calls; before the
row count it returns exactly the table row at index rownumber (found at
window index rownumber - offset) and advances rownumber by one, leaving
offset ≤ rownumber - 1 < offset + len(rows) for the row just served; a
position inside the window changes nothing else and makes no calls, while
a position outside it triggers exactly one cache refill — a single export
round trip whose requested end is rownumber + 1 — relocating offset to
rownumber. -/
theorem c4_fetchone {Val : Type} (C : Collab Val) (table : List (List Val))
    (s : CursorState Val) (hA : Active table s) (hpol : PolicyAdequate C) :
    (s.rowcount ≤ s.rownumber → fetchone C table s = .ok none s [])
    ∧ (s.rownumber < s.rowcount →
        ∃ row s2 evs, table[s.rownumber.toNat]? = some row
          ∧ fetchone C table s = .ok (some row) s2 evs
          ∧ s2.rownumber = s.rownumber + 1
          ∧ s2.offset ≤ s2.rownumber - 1
          ∧ s2.rownumber - 1 < s2.offset + (s2.rows.length : Int)
          ∧ (s.rownumber < s.offset + (s.rows.length : Int) →
              s2 = {s with rownumber := s.rownumber + 1} ∧ evs = [])
          ∧ (s.offset + (s.rows.length : Int) ≤ s.rownumber →
              s2.offset = s.rownumber ∧
              evs = [exportEvent (s.canBindecode.getD C.bindecodeOutcome) (queryIdStr s)
                s.rownumber (C.batchSize 0 s.rownumber (s.rownumber + 1) s.rowcount)])) := by
  obtain ⟨h1, h2, h3, h4, h5, h6, h7, h8, h9⟩ := hA
  have hchk : checkExecutedFails s = false := executedFalsy_false h1 h2
  have hrn0 : 0 ≤ s.rownumber := le_trans h5 h8
  constructor
  · intro hend
    unfold fetchone
    rw [hchk]
    simp only [Bool.false_eq_true, if_false, if_neg h3]
    rw [if_pos (show s.rownumber ≥ s.offset + (s.rows.length : Int) from by omega),
      if_pos (show s.rownumber ≥ s.rowcount from hend)]
  · intro hlt
    have hidx : s.rownumber.toNat < table.length := by omega
    obtain ⟨row, hrow⟩ : ∃ row, table[s.rownumber.toNat]? = some row :=
      ⟨_, List.getElem?_eq_getElem hidx⟩
    by_cases hwin : s.rownumber < s.offset + (s.rows.length : Int)
    · have hget : pyGet s.rows (s.rownumber - s.offset) = table[s.rownumber.toNat]? := by
        rw [pyGet_window table s.rows s.offset (s.rownumber - s.offset) h5 h6
          (by omega) (by omega)]
        congr 1
        omega
      rw [hrow] at hget
      have heval : fetchone C table s =
          .ok (some row) {s with rownumber := s.rownumber + 1} [] := by
        unfold fetchone
        rw [hchk]
        simp only [Bool.false_eq_true, if_false, if_neg h3]
        rw [if_neg (show ¬ s.rownumber ≥ s.offset + (s.rows.length : Int) from not_le.mpr hwin),
          hget]
      refine ⟨row, {s with rownumber := s.rownumber + 1}, [],
        hrow, heval, rfl, ?_, ?_, fun _ => ⟨rfl, rfl⟩,
        fun hout => absurd hwin (not_lt.mpr hout)⟩
      · show s.offset ≤ s.rownumber + 1 - 1
        omega
      · show s.rownumber + 1 - 1 < s.offset + (s.rows.length : Int)
        omega
    · have hge : s.rownumber ≥ s.offset + (s.rows.length : Int) := not_lt.mp hwin
      have hbatch := hpol 0 s.rownumber (s.rownumber + 1) s.rowcount
      have hlen2 := serverRows_length table s.rownumber
        (C.batchSize 0 s.rownumber (s.rownumber + 1) s.rowcount)
      have hlengt : 0 < (serverRows table s.rownumber
          (C.batchSize 0 s.rownumber (s.rownumber + 1) s.rowcount)).length := by
        rw [hlen2]
        omega
      have hget : pyGet (serverRows table s.rownumber
            (C.batchSize 0 s.rownumber (s.rownumber + 1) s.rowcount))
            (s.rownumber - s.rownumber) = table[s.rownumber.toNat]? := by
        rw [show s.rownumber - s.rownumber = (0 : Int) from by ring,
          pyGet_window table _ s.rownumber 0 hrn0
            (serverRows_window table s.rownumber _) le_rfl (by exact_mod_cast hlengt)]
        congr 1
        omega
      rw [hrow] at hget
      have heval : fetchone C table s =
          .ok (some row)
            {s with
              rownumber := s.rownumber + 1,
              offset := s.rownumber,
              canBindecode := some (s.canBindecode.getD C.bindecodeOutcome),
              rows := serverRows table s.rownumber
                (C.batchSize 0 s.rownumber (s.rownumber + 1) s.rowcount)}
            [exportEvent (s.canBindecode.getD C.bindecodeOutcome) (queryIdStr s) s.rownumber
              (C.batchSize 0 s.rownumber (s.rownumber + 1) s.rowcount)] := by
        unfold fetchone
        rw [hchk]
        simp only [Bool.false_eq_true, if_false, if_neg h3]
        rw [if_pos hge, if_neg (show ¬ s.rownumber ≥ s.rowcount from not_le.mpr hlt),
          populateCache_eq]
        try dsimp only
        rw [hget]
      refine ⟨row, _, _,
        hrow, heval, rfl, ?_, ?_,
        fun hin => absurd hin (not_lt.mpr hge), fun _ => ⟨rfl, rfl⟩⟩
      · show s.rownumber ≤ s.rownumber + 1 - 1
        omega
      · show s.rownumber + 1 - 1 < s.rownumber + ((serverRows table s.rownumber
          (C.batchSize 0 s.rownumber (s.rownumber + 1) s.rowcount)).length : Int)
        omega

theorem c4_fetchone_witness :
    (activeCursor.rowcount ≤ activeCursor.rownumber →
      fetchone natCollab table3 activeCursor = .ok none activeCursor [])
    ∧ (activeCursor.rownumber < activeCursor.rowcount →
        ∃ row s2 evs, table3[activeCursor.rownumber.toNat]? = some row
          ∧ fetchone natCollab table3 activeCursor = .ok (some row) s2 evs
          ∧ s2.rownumber = activeCursor.rownumber + 1
          ∧ s2.offset ≤ s2.rownumber - 1
          ∧ s2.rownumber - 1 < s2.offset + (s2.rows.length : Int)
          ∧ (activeCursor.rownumber < activeCursor.offset + (activeCursor.rows.length : Int) →
              s2 = {activeCursor with rownumber := activeCursor.rownumber + 1} ∧ evs = [])
          ∧ (activeCursor.offset + (activeCursor.rows.length : Int) ≤ activeCursor.rownumber →
              s2.offset = activeCursor.rownumber ∧
              evs = [exportEvent (activeCursor.canBindecode.getD natCollab.bindecodeOutcome)
                (queryIdStr activeCursor) activeCursor.rownumber
                (natCollab.batchSize 0 activeCursor.rownumber (activeCursor.rownumber + 1)
                  activeCursor.rowcount)])) :=
  c4_fetchone natCollab table3 activeCursor (by decide) (fun a p e t => le_refl (e - p))

/-- **C5**: over an active result set, any sequence of fetchmany calls with
positive sizes that runs the set to exhaustion concatenates to exactly the
remaining table rows in server order (all rowcount rows when starting at
row zero); a single fetchall returns the very same sequence; and fetchall
is by definition fetchmany of the full row count. -/
theorem c5_fetch_equivalence {Val : Type} (C : Collab Val) (table : List (List Val))
    (s : CursorState Val) (ks : List Int)
    (hA : Active table s) (hpol : PolicyAdequate C)
    (hpos : ∀ k ∈ ks, 1 ≤ k)
    (hexh : s.rowcount ≤ s.rownumber + ks.sum) :
    (∃ sf, runMany C table s ks = some (table.drop s.rownumber.toNat, sf)
        ∧ sf.rownumber = s.rowcount)
    ∧ (∃ s2 evs, fetchall C table s = .ok (table.drop s.rownumber.toNat) s2 evs)
    ∧ (∀ s3 : CursorState Val, fetchall C table s3 = fetchmany C table (some s3.rowcount) s3)
    ∧ (s.rownumber = 0 → ((table.drop s.rownumber.toNat).length : Int) = s.rowcount) := by
  have main : ∀ ks : List Int, ∀ s : CursorState Val, Active table s → (∀ k ∈ ks, 1 ≤ k) →
      s.rowcount ≤ s.rownumber + ks.sum →
      ∃ sf, runMany C table s ks = some (table.drop s.rownumber.toNat, sf)
        ∧ sf.rownumber = s.rowcount := by
    intro ks
    induction ks with
    | nil =>
      intro s hA hpos hexh
      obtain ⟨g1, g2, g3, g4, g5, g6, g7, g8, g9⟩ := hA
      simp only [List.sum_nil, add_zero] at hexh
      refine ⟨s, ?_, by omega⟩
      rw [show table.drop s.rownumber.toNat = ([] : List (List Val)) from
        List.drop_eq_nil_of_le (by omega)]
      rfl
    | cons k ks ih =>
      intro s hA hpos hexh
      have hk1 : 1 ≤ k := hpos k (List.mem_cons_self k ks)
      obtain ⟨s2, evs, heq, hA2, hrn2⟩ := fetchmany_spec C table s k hA hpol (by omega)
      obtain ⟨g1, g2, g3, g4, g5, g6, g7, g8, g9⟩ := hA
      have g4' : s2.rowcount = (table.length : Int) := hA2.2.2.2.1
      have hrn0 : 0 ≤ s.rownumber := le_trans g5 g8
      rw [List.sum_cons] at hexh
      have hsum : 0 ≤ ks.sum :=
        List.sum_nonneg (fun x hx => le_trans zero_le_one (hpos x (List.mem_cons_of_mem k hx)))
      obtain ⟨sf, hrun, hrnf⟩ := ih s2 hA2 (fun x hx => hpos x (List.mem_cons_of_mem k hx))
        (by rw [g4', ← g4, hrn2]; omega)
      have hstep : runMany C table s (k :: ks) =
          (runMany C table s2 ks).map (fun p => ((table.drop s.rownumber.toNat).take
            (min (s.rownumber + k) s.rowcount - s.rownumber).toNat ++ p.1, p.2)) := by
        simp only [runMany]
        rw [heq]
      refine ⟨sf, ?_, by rw [hrnf, g4', g4]⟩
      rw [hstep, hrun, Option.map_some']
      refine congrArg some ?_
      refine Prod.ext ?_ rfl
      show (table.drop s.rownumber.toNat).take
          (min (s.rownumber + k) s.rowcount - s.rownumber).toNat ++
          table.drop s2.rownumber.toNat = table.drop s.rownumber.toNat
      rw [hrn2]
      have hdd : table.drop (min (s.rownumber + k) s.rowcount).toNat =
          (table.drop s.rownumber.toNat).drop
            ((min (s.rownumber + k) s.rowcount - s.rownumber).toNat) := by
        rw [List.drop_drop]
        congr 1
        omega
      rw [hdd]
      exact List.take_append_drop _ _
  refine ⟨main ks s hA hpos hexh, ?_, fun s3 => rfl, ?_⟩
  · have h4 : s.rowcount = (table.length : Int) := hA.2.2.2.1
    have hrn0 : 0 ≤ s.rownumber := le_trans hA.2.2.2.2.1 hA.2.2.2.2.2.2.2.1
    have hrnle : s.rownumber ≤ s.rowcount :=
      le_trans hA.2.2.2.2.2.2.2.2 hA.2.2.2.2.2.2.1
    obtain ⟨s2, evs, heq, _, _⟩ := fetchmany_spec C table s s.rowcount hA hpol (by omega)
    refine ⟨s2, evs, ?_⟩
    unfold fetchall
    rw [heq]
    rw [show (min (s.rownumber + s.rowcount) s.rowcount - s.rownumber).toNat =
      (table.drop s.rownumber.toNat).length from by rw [List.length_drop]; omega]
    rw [List.take_length]
  · intro h0
    rw [h0]
    simp [hA.2.2.2.1]

theorem c5_fetch_equivalence_witness :
    (∃ sf, runMany natCollab table3 activeCursor [1, 2] =
        some (table3.drop activeCursor.rownumber.toNat, sf)
      ∧ sf.rownumber = activeCursor.rowcount)
    ∧ (∃ s2 evs, fetchall natCollab table3 activeCursor =
        .ok (table3.drop activeCursor.rownumber.toNat) s2 evs)
    ∧ (∀ s3 : CursorState Nat, fetchall natCollab table3 s3 =
        fetchmany natCollab table3 (some s3.rowcount) s3)
    ∧ (activeCursor.rownumber = 0 →
        ((table3.drop activeCursor.rownumber.toNat).length : Int) = activeCursor.rowcount) :=
  c5_fetch_equivalence natCollab table3 activeCursor [1, 2] (by decide)
    (fun a p e t => le_refl (e - p)) (by decide) (by decide)

end Pymonetdb
